import Mathlib

/-!
qbuilder: parameter record to SQL fragment.

A shallow embedding of `cursor.go` and `qbuilder.go`.

Modelling conventions.
* A Go `string` is a Lean `String`; the byte operations the code uses
  (`HasSuffix`, `v[0]`, `v[1:]`, concatenation) only ever test or cut at ASCII
  characters, where bytes and code points of well-formed text coincide.
* A Go slice is a `List`; every slice the builder owns is grown by `append`
  from `nil`, so it is `nil` exactly when it is empty, and `[]` stands for both.
* `int64` values are `Int`, and the arithmetic of `makeLimitClause` wraps
  explicitly with `wrapInt64`.
* A floating-point value is carried as its bit pattern; the code never computes
  with it, it only passes it on as an argument.
* A run-time panic is `none`.
* The two `fmt.Println` calls of `Build` write to standard output and do not
  change the builder or the result; they are left out.
* Struct fields are the exported ones, on which `reflect.Value.Interface` is
  defined.
* A field carries the dynamic value `field.Interface()` returns, on which every
  type switch works, together with a flag telling whether the field is declared
  with an interface type; the flag matters where the code asks the
  `reflect.Value` itself, as `makeClauseString` does with `c.field.String()`.
-/

namespace QBuilder

/-! ## Values -/

/-- An instant of `time.Time`: seconds since year 1 and nanoseconds, with a
location tag. -/
structure Time where
  sec : Int
  nsec : Nat
  loc : String
deriving DecidableEq, Repr

/-- The method `time.Time.IsZero`: seconds and nanoseconds are both zero. -/
def Time.IsZero (t : Time) : Bool := t.sec == 0 && t.nsec == 0

/-- The dynamic value of an `interface{}`: the runtime types the type switches
of `cursor.go` and `qbuilder.go` name, the other numeric scalar types of Go, and
`other` for any remaining type (given by its type name and a rendering). -/
inductive Value where
  | str (s : String)
  | int (v : Int)
  | int32 (v : Int)
  | int64 (v : Int)
  | float32 (bits : Nat)
  | float64 (bits : Nat)
  | time (t : Time)
  | nullTime (t : Time) (valid : Bool)
  | strs (l : List String)
  | ints (l : List Int)
  | int32s (l : List Int)
  | int64s (l : List Int)
  | float32s (l : List Nat)
  | float64s (l : List Nat)
  | nullString (s : String) (valid : Bool)
  | nullInt32 (v : Int) (valid : Bool)
  | nullInt64 (v : Int) (valid : Bool)
  | nullFloat64 (bits : Nat) (valid : Bool)
  | int8 (v : Int)
  | int16 (v : Int)
  | uint (v : Nat)
  | uint8 (v : Nat)
  | uint16 (v : Nat)
  | uint32 (v : Nat)
  | uint64 (v : Nat)
  | bool (b : Bool)
  | other (typeName : String) (rendering : String)
deriving DecidableEq, Repr

/-- One struct field as `Build` sees it, which is also the `cursor` made by
`newCursor`: the dynamic value `field.Interface()` returns, the two tags read by
`structTags.Get("param")` and `structTags.Get("db")` (an absent tag reads as
the empty string), and whether the field is declared with an interface type
(`interface{}`), so that the `reflect.Value` of the field has kind `Interface`
and not the kind of the value it holds. -/
structure cursor where
  field : Value
  param : String
  db : String
  iface : Bool
deriving DecidableEq, Repr

/-- A struct value: its fields in declared order. -/
abbrev Record := List cursor

/-- What a pointer points to, or what a non-pointer argument is. -/
inductive Pointee where
  | struct (fields : Record)
  | nonStruct (v : Value)
deriving DecidableEq, Repr

/-- The argument `param interface{}` of `Build`. -/
inductive Param where
  | untypedNil
  | nonPointer (p : Pointee)
  | nilPointer
  | pointer (p : Pointee)
deriving DecidableEq, Repr

/-! ## String primitives of the standard library -/

/-- The function `strings.HasSuffix`:
`len(s) >= len(suffix) && s[len(s)-len(suffix):] == suffix`. -/
def HasSuffix (s suffix : String) : Bool :=
  decide (suffix.data.length ≤ s.data.length) &&
    decide (s.data.drop (s.data.length - suffix.data.length) = suffix.data)

/-- The verb `%d` of `fmt.Sprintf` on an integer: decimal digits, with a
leading minus sign for a negative number. -/
def fmtInt (n : Int) : String := toString n

/-- Two's-complement wrap-around of `int64` arithmetic. -/
def wrapInt64 (x : Int) : Int := (x + 2 ^ 63) % 2 ^ 64 - 2 ^ 63

/-- The number of `?` characters of a string. -/
def countPlaceholders (s : String) : Nat := s.data.count '?'

/-! ## cursor.go -/

def cursor.IsPage (c : cursor) : Bool := c.param == "page"

def cursor.IsLimit (c : cursor) : Bool := c.param == "limit"

def cursor.IsSortBy (c : cursor) : Bool := c.param == "short_by"

def cursor.IsEmpty (c : cursor) : Bool :=
  if c.param == "-" || c.param == "" || c.db == "" || c.db == "-" then true else false

def cursor.GetOperand (c : cursor) : String :=
  if HasSuffix c.param "__gt" then ">"
  else if HasSuffix c.param "__gte" then ">="
  else if HasSuffix c.param "__lt" then "<"
  else if HasSuffix c.param "__lte" then "<="
  else if HasSuffix c.param "__neq" then "!="
  else "="

def cursor.GetOperandMulti (c : cursor) : String :=
  if HasSuffix c.param "__nin" then "NOT IN" else "IN"

/-- The call `fmt.Sprintf(whereClauseFmt, db, operand)` with
`whereClauseFmt = " AND %s %s ?"`. -/
def whereClauseFmt (db operand : String) : String :=
  " AND " ++ db ++ " " ++ operand ++ " ?"

/-- The call `fmt.Sprintf(whereClauseMultiFmt, db, operand)` with
`whereClauseMultiFmt = " AND %s %s (?)"`. -/
def whereClauseMultiFmt (db operand : String) : String :=
  " AND " ++ db ++ " " ++ operand ++ " (?)"

/-- The triple `(clause, args, skip)` returned by the conversions. -/
abbrev Clause := String × List Value × Bool

def cursor.makeClause (c : cursor) (operand : String) (val : Value) : Clause :=
  (whereClauseFmt c.db operand, [val], false)

/-- The method `reflect.Value.String` on the field of a cursor whose dynamic
value is the string `val`: the text itself when the field is declared `string`
(kind `String`), and the description `<interface {} Value>` when the field is
declared with an interface type (any other kind gives `<T Value>` for its type
`T`, never the text held). -/
def cursor.fieldString (c : cursor) (val : String) : String :=
  if c.iface then "<interface {} Value>" else val

def cursor.makeClauseString (c : cursor) (operand : String) (val : String) : Clause :=
  if c.fieldString val = "" then ("", [], true)
  else c.makeClause (if operand = "=" then "LIKE" else operand) (.str val)

def cursor.makeClauseTime (c : cursor) (operand : String) (val : Time) : Clause :=
  if val.IsZero then ("", [], true) else c.makeClause operand (.time val)

def cursor.makeClauseNullTime (c : cursor) (operand : String) (t : Time) (valid : Bool) :
    Clause :=
  if !valid then ("", [], true) else c.makeClause operand (.time t)

def cursor.makeClauseNullString (c : cursor) (operand : String) (s : String) (valid : Bool) :
    Clause :=
  if !valid then ("", [], true)
  else c.makeClause (if operand = "=" then "LIKE" else operand) (.str s)

def cursor.makeClauseNullInt32 (c : cursor) (operand : String) (v : Int) (valid : Bool) :
    Clause :=
  if !valid then ("", [], true) else c.makeClause operand (.int32 v)

def cursor.makeClauseNullInt64 (c : cursor) (operand : String) (v : Int) (valid : Bool) :
    Clause :=
  if !valid then ("", [], true) else c.makeClause operand (.int64 v)

def cursor.makeClauseNullFloat64 (c : cursor) (operand : String) (bits : Nat) (valid : Bool) :
    Clause :=
  if !valid then ("", [], true) else c.makeClause operand (.float64 bits)

/-- The text before the first `?` and the text after it, when there is one
(`strings.IndexByte(query, '?')` and the two slices taken around it). -/
def splitAtPlaceholder : List Char → Option (List Char × List Char)
  | [] => none
  | ch :: rest =>
    if ch = '?' then some ([], rest)
    else (splitAtPlaceholder rest).map fun p => (ch :: p.1, p.2)

/-- The text `", ?"` written `k` times. -/
def extraPlaceholders : Nat → List Char
  | 0 => []
  | k + 1 => [',', ' ', '?'] ++ extraPlaceholders k

/-- The library function `sqlx.In(query, val)` of github.com/jmoiron/sqlx as
`makeClauseMulti` calls it: one argument, a slice, here already flattened to
its elements. An empty slice is an error. Otherwise the first `?` of the query
is kept and followed by one `", ?"` for each further element; a second `?` in
the query has no argument left to bind and is an error ("number of bindVars
exceeds arguments"), as is a query without any `?`. On an error the library
returns the empty string and a nil argument list, which is all that
`makeClauseMulti` keeps, so an error is the pair `("", [])`. -/
def sqlxIn (query : String) (elems : List Value) : String × List Value :=
  if elems.length = 0 then ("", [])
  else
    match splitAtPlaceholder query.data with
    | none => ("", [])
    | some (before, after) =>
      if '?' ∈ after then ("", [])
      else (String.mk (before ++ ['?'] ++ extraPlaceholders (elems.length - 1) ++ after), elems)

def cursor.makeClauseMulti (c : cursor) (elems : List Value) : Clause :=
  let operandMulti := c.GetOperandMulti
  let tempQuery := whereClauseMultiFmt c.db operandMulti
  let r := sqlxIn tempQuery elems
  (r.1, r.2, decide (r.2.length < 1))

def cursor.makeClausePrimitiveType (c : cursor) : Clause :=
  let operand := c.GetOperand
  match c.field with
  | .str val => c.makeClauseString operand val
  | .int v => c.makeClause operand (.int v)
  | .int32 v => c.makeClause operand (.int32 v)
  | .int64 v => c.makeClause operand (.int64 v)
  | .float32 b => c.makeClause operand (.float32 b)
  | .float64 b => c.makeClause operand (.float64 b)
  | _ => ("", [], true)

def cursor.makeClauseTimeType (c : cursor) : Clause :=
  let operand := c.GetOperand
  match c.field with
  | .time val => c.makeClauseTime operand val
  | .nullTime t valid => c.makeClauseNullTime operand t valid
  | _ => ("", [], true)

def cursor.makeClauseArrayType (c : cursor) : Clause :=
  match c.field with
  | .strs l => c.makeClauseMulti (l.map Value.str)
  | .ints l => c.makeClauseMulti (l.map Value.int)
  | .int32s l => c.makeClauseMulti (l.map Value.int32)
  | .int64s l => c.makeClauseMulti (l.map Value.int64)
  | .float32s l => c.makeClauseMulti (l.map Value.float32)
  | .float64s l => c.makeClauseMulti (l.map Value.float64)
  | _ => ("", [], true)

def cursor.makeClauseSqlNullType (c : cursor) : Clause :=
  let operand := c.GetOperand
  match c.field with
  | .nullString s valid => c.makeClauseNullString operand s valid
  | .nullInt32 v valid => c.makeClauseNullInt32 operand v valid
  | .nullInt64 v valid => c.makeClauseNullInt64 operand v valid
  | .nullFloat64 b valid => c.makeClauseNullFloat64 operand b valid
  | _ => ("", [], true)

def cursor.Make (c : cursor) : Clause :=
  match c.field with
  | .str _ | .int _ | .int32 _ | .int64 _ | .float32 _ | .float64 _ =>
    c.makeClausePrimitiveType
  | .time _ | .nullTime _ _ => c.makeClauseTimeType
  | .strs _ | .ints _ | .int32s _ | .int64s _ | .float32s _ | .float64s _ =>
    c.makeClauseArrayType
  | .nullString _ _ | .nullInt32 _ _ | .nullInt64 _ _ | .nullFloat64 _ _ =>
    c.makeClauseSqlNullType
  | _ => ("", [], true)

/-! ## qbuilder.go -/

def defaultPage : Int := 1

def defaultLimit : Int := 10

structure queryBuilder where
  page : Int
  limit : Int
  sortBy : List String
  customWhereClause : List String
  customWhereClauseArgs : List Value
  extraLimit : Int
  args : List Value
  whereClause : String
deriving DecidableEq, Repr

/-- The functional options a caller can pass to `New`; the package exports one
constructor for them. -/
inductive Option' where
  | WithExtraLimit
deriving DecidableEq, Repr

def Option'.apply : Option' → queryBuilder → queryBuilder
  | .WithExtraLimit, qb => { qb with extraLimit := 1 }

def New (opts : List Option') : queryBuilder :=
  opts.foldl (fun qb opt => opt.apply qb)
    { page := defaultPage, limit := defaultLimit, sortBy := [],
      customWhereClause := [], customWhereClauseArgs := [],
      extraLimit := 0, args := [], whereClause := " WHERE 1=1" }

def queryBuilder.AddWhereClause (q : queryBuilder) (wc : String) (args : List Value) :
    queryBuilder :=
  { q with customWhereClause := q.customWhereClause ++ [wc],
           customWhereClauseArgs := q.customWhereClauseArgs ++ args }

def handleParamPage (field : Value) : Int :=
  match field with
  | .int64 val => if val > 0 then val else defaultPage
  | .int val => if val > 0 then val else defaultPage
  | _ => defaultPage

def handleParamLimit (field : Value) : Int :=
  match field with
  | .int64 val => if val > 0 then val else defaultLimit
  | .int val => if val > 0 then val else defaultLimit
  | _ => defaultLimit

def handleParamShortBy (field : Value) : List String :=
  match field with
  | .strs val => val
  | _ => []

/-- The loop of `makeOrderByClause` from index `i` on, with the text built so
far; `v[0]` on an empty string panics. -/
def orderByLoop : Nat → List String → String → Option String
  | _, [], acc => some acc
  | i, v :: rest, acc =>
    let acc := if i > 0 then acc ++ ", " else acc
    match v.data with
    | [] => none
    | ch :: tail =>
      if ch = '-' then orderByLoop (i + 1) rest (acc ++ String.mk tail ++ " DESC")
      else orderByLoop (i + 1) rest (acc ++ v ++ " ASC")

def queryBuilder.makeOrderByClause (q : queryBuilder) : Option String :=
  if q.sortBy.length > 0 then orderByLoop 0 q.sortBy " ORDER BY " else some ""

def queryBuilder.makeLimitClause (q : queryBuilder) : String :=
  let offset := wrapInt64 (wrapInt64 (q.page - 1) * q.limit)
  " LIMIT " ++ fmtInt offset ++ ", " ++
    fmtInt (wrapInt64 (wrapInt64 (offset + q.limit) + q.extraLimit))

def queryBuilder.appendCustomWhere (q : queryBuilder) : queryBuilder :=
  { q with
    whereClause := q.customWhereClause.foldl (fun w wc => w ++ " AND " ++ wc) q.whereClause,
    args := q.args ++ q.customWhereClauseArgs }

/-- One iteration of the field loop of `Build`. -/
def queryBuilder.stepField (q : queryBuilder) (c : cursor) : queryBuilder :=
  if c.IsPage then { q with page := handleParamPage c.field }
  else if c.IsLimit then { q with limit := handleParamLimit c.field }
  else if c.IsSortBy then { q with sortBy := handleParamShortBy c.field }
  else if c.IsEmpty then q
  else
    let r := c.Make
    if r.2.2 then q
    else { q with whereClause := q.whereClause ++ r.1, args := q.args ++ r.2.1 }

/-- The field loop of `Build`, over the fields in declared order. -/
def queryBuilder.scanFields (q : queryBuilder) (r : Record) : queryBuilder :=
  r.foldl queryBuilder.stepField q

/-- What `Build` returns: the fragment, the arguments and the error (`none` is
the nil error). -/
structure BuildResult where
  sqlClause : String
  args : List Value
  err : Option String
deriving DecidableEq, Repr

/-- The method `Build`: the values returned together with the builder as the
call leaves it, or `none` when the call panics (`NumField` on a non-struct,
`v[0]` on an empty sort entry). -/
def queryBuilder.Build (q : queryBuilder) (param : Param) :
    Option (BuildResult × queryBuilder) :=
  match param with
  | .untypedNil | .nonPointer _ | .nilPointer =>
    some (⟨"", [], some "should be a pointer and cannot be nil"⟩, q)
  | .pointer (.nonStruct _) => none
  | .pointer (.struct r) =>
    let q1 := q.scanFields r
    let q2 := q1.appendCustomWhere
    match q2.makeOrderByClause with
    | none => none
    | some orderBy =>
      some (⟨q2.whereClause ++ orderBy ++ q2.makeLimitClause, q2.args, none⟩, q2)

def ValidatePageAndLimit (p l : Int) : Int × Int :=
  (if p = 0 then 1 else p, if l = 0 then 10 else l)

/-! ## Notions used to state the properties -/

/-- A field that reaches the conversion `Make`: none of the control checks nor
the tag check of `Build` sends it away. -/
def cursor.isFilter (c : cursor) : Bool :=
  !c.IsPage && !c.IsLimit && !c.IsSortBy && !c.IsEmpty

/-- A filter field whose conversion does not report skip. -/
def cursor.contributes (c : cursor) : Bool := c.isFilter && !c.Make.2.2

/-- The clauses of the contributing fields, in declared order, as one text. -/
def fieldClauses : Record → String
  | [] => ""
  | c :: rest => (if c.contributes then c.Make.1 else "") ++ fieldClauses rest

/-- The arguments of the contributing fields, in declared order. -/
def fieldArgs : Record → List Value
  | [] => []
  | c :: rest => (if c.contributes then c.Make.2.1 else []) ++ fieldArgs rest

/-- Whether the argument of `Build` is a pointer that is not nil. -/
def Param.isNonNilPointer : Param → Bool
  | .pointer _ => true
  | _ => false

/-- Every entry of every `[]string` field tagged `short_by`, in declared order:
the strings that can end up in the sort list of the builder. -/
def sortEntries : Record → List String
  | [] => []
  | c :: rest => (if c.IsSortBy then handleParamShortBy c.field else []) ++ sortEntries rest

/-- The argument a supported single-value field supplies when it is not
skipped: the value itself, or the value inside a nullable wrapper. -/
def Value.scalarArg : Value → Option Value
  | .str s => some (.str s)
  | .int v => some (.int v)
  | .int32 v => some (.int32 v)
  | .int64 v => some (.int64 v)
  | .float32 b => some (.float32 b)
  | .float64 b => some (.float64 b)
  | .time t => some (.time t)
  | .nullTime t _ => some (.time t)
  | .nullString s _ => some (.str s)
  | .nullInt32 v _ => some (.int32 v)
  | .nullInt64 v _ => some (.int64 v)
  | .nullFloat64 b _ => some (.float64 b)
  | _ => none

/-- The elements of a collection field, as arguments. -/
def Value.elems : Value → Option (List Value)
  | .strs l => some (l.map Value.str)
  | .ints l => some (l.map Value.int)
  | .int32s l => some (l.map Value.int32)
  | .int64s l => some (l.map Value.int64)
  | .float32s l => some (l.map Value.float32)
  | .float64s l => some (l.map Value.float64)
  | _ => none

/-- The operand a single-value field is rendered with: the inferred operand,
with `=` replaced by `LIKE` for text and nullable text. -/
def cursor.renderedOperand (c : cursor) : String :=
  match c.field with
  | .str _ | .nullString _ _ => if c.GetOperand = "=" then "LIKE" else c.GetOperand
  | _ => c.GetOperand

/-- A field that `Build` passes over because of its tags alone: it is not a
control field and `IsEmpty` holds. -/
def cursor.excludedByTags (c : cursor) : Bool :=
  !c.IsPage && !c.IsLimit && !c.IsSortBy && c.IsEmpty

/-- The text `?, ?, ..., ?` with `n` placeholders, as the claim writes it. -/
def placeholderList (n : Nat) : String :=
  String.intercalate ", " (List.replicate n "?")

/-- The page a field assigns to the builder, if it assigns one. -/
def cursor.pageUpdate (c : cursor) : Option Int :=
  if c.IsPage then some (handleParamPage c.field) else none

/-- The limit a field assigns to the builder, if it assigns one. -/
def cursor.limitUpdate (c : cursor) : Option Int :=
  if !c.IsPage && c.IsLimit then some (handleParamLimit c.field) else none

/-- The sort list a field assigns to the builder, if it assigns one. -/
def cursor.sortUpdate (c : cursor) : Option (List String) :=
  if !c.IsPage && !c.IsLimit && c.IsSortBy then some (handleParamShortBy c.field) else none

/-- The value a control setting ends with after the fields of a record, each of
which either assigns it or leaves it alone, starting from `init`. -/
def lastUpdate {β : Type} (sel : cursor → Option β) (init : β) (r : Record) : β :=
  r.foldl (fun s c => (sel c).getD s) init

/-- One sort entry as the claim renders it: an entry beginning with `-` is the
rest of the entry followed by `" DESC"`, any other entry is the entry followed
by `" ASC"`. -/
def renderSortEntry (v : String) : String :=
  match v.data with
  | '-' :: tail => String.mk tail ++ " DESC"
  | _ => v ++ " ASC"

/-- The custom fragments as they are appended to the WHERE part: each one
prefixed by `" AND "`, in the order given. -/
def customClauses : List String → String
  | [] => ""
  | wc :: rest => " AND " ++ wc ++ customClauses rest

/-- A sequence of `AddWhereClause` calls, each with its fragment and its
arguments, applied to a builder in order. -/
def addWhereClauses (q : queryBuilder) (adds : List (String × List Value)) : queryBuilder :=
  adds.foldl (fun b a => b.AddWhereClause a.1 a.2) q

/-- The texts of a list written one after the other. -/
def concatStrings : List String → String
  | [] => ""
  | s :: rest => s ++ concatStrings rest

/-- The clauses a build puts after the base predicate, each with the arguments
it supplies: the contributing fields of the record in declared order, then the
custom fragments in the order added, each prefixed by `" AND "`. -/
def clauseContributions (r : Record) (adds : List (String × List Value)) :
    List (String × List Value) :=
  (r.filter cursor.contributes).map (fun c => (c.Make.1, c.Make.2.1)) ++
    adds.map (fun a => (" AND " ++ a.1, a.2))

/-- For each `?` of a sequence of clauses, read from the left, the index of the
clause it stands in; the first clause has index `j`. -/
def placeholderOwners : Nat → List String → List Nat
  | _, [] => []
  | j, s :: rest => (s.data.filter (· == '?')).map (fun _ => j) ++ placeholderOwners (j + 1) rest

/-- For each argument of a sequence of argument lists, read from the left, the
index of the list it comes from; the first list has index `j`. -/
def argumentOwners : Nat → List (List Value) → List Nat
  | _, [] => []
  | j, a :: rest => a.map (fun _ => j) ++ argumentOwners (j + 1) rest

/-! ## Basic facts -/

theorem str_append_empty (s : String) : s ++ "" = s := by
  apply String.ext; simp [String.data_append]

theorem str_empty_append (s : String) : "" ++ s = s := by
  apply String.ext; simp [String.data_append]

theorem str_append_assoc (a b c : String) : a ++ b ++ c = a ++ (b ++ c) := by
  apply String.ext; simp [String.data_append]

theorem countPlaceholders_append (a b : String) :
    countPlaceholders (a ++ b) = countPlaceholders a + countPlaceholders b := by
  simp [countPlaceholders, String.data_append]

theorem stepField_whereClause (q : queryBuilder) (c : cursor) :
    (q.stepField c).whereClause =
      q.whereClause ++ (if c.contributes then c.Make.1 else "") := by
  unfold queryBuilder.stepField cursor.contributes cursor.isFilter
  by_cases h1 : c.IsPage <;> by_cases h2 : c.IsLimit <;> by_cases h3 : c.IsSortBy <;>
    by_cases h4 : c.IsEmpty <;> by_cases h5 : c.Make.2.2 <;>
    simp [h1, h2, h3, h4, h5, str_append_empty]

theorem stepField_args (q : queryBuilder) (c : cursor) :
    (q.stepField c).args = q.args ++ (if c.contributes then c.Make.2.1 else []) := by
  unfold queryBuilder.stepField cursor.contributes cursor.isFilter
  by_cases h1 : c.IsPage <;> by_cases h2 : c.IsLimit <;> by_cases h3 : c.IsSortBy <;>
    by_cases h4 : c.IsEmpty <;> by_cases h5 : c.Make.2.2 <;>
    simp [h1, h2, h3, h4, h5]

theorem stepField_custom (q : queryBuilder) (c : cursor) :
    (q.stepField c).customWhereClause = q.customWhereClause ∧
    (q.stepField c).customWhereClauseArgs = q.customWhereClauseArgs ∧
    (q.stepField c).extraLimit = q.extraLimit := by
  unfold queryBuilder.stepField
  by_cases h1 : c.IsPage <;> by_cases h2 : c.IsLimit <;> by_cases h3 : c.IsSortBy <;>
    by_cases h4 : c.IsEmpty <;> by_cases h5 : c.Make.2.2 <;>
    simp [h1, h2, h3, h4, h5]

theorem scanFields_whereClause (r : Record) (q : queryBuilder) :
    (q.scanFields r).whereClause = q.whereClause ++ fieldClauses r := by
  induction r generalizing q with
  | nil => simp [queryBuilder.scanFields, fieldClauses, str_append_empty]
  | cons c rest ih =>
    have h := ih (q.stepField c)
    simp only [queryBuilder.scanFields, List.foldl_cons] at h ⊢
    rw [h, stepField_whereClause, fieldClauses, str_append_assoc]

theorem scanFields_args (r : Record) (q : queryBuilder) :
    (q.scanFields r).args = q.args ++ fieldArgs r := by
  induction r generalizing q with
  | nil => simp [queryBuilder.scanFields, fieldArgs]
  | cons c rest ih =>
    have h := ih (q.stepField c)
    simp only [queryBuilder.scanFields, List.foldl_cons] at h ⊢
    rw [h, stepField_args, fieldArgs, List.append_assoc]

theorem scanFields_custom (r : Record) (q : queryBuilder) :
    (q.scanFields r).customWhereClause = q.customWhereClause ∧
    (q.scanFields r).customWhereClauseArgs = q.customWhereClauseArgs ∧
    (q.scanFields r).extraLimit = q.extraLimit := by
  induction r generalizing q with
  | nil => simp [queryBuilder.scanFields]
  | cons c rest ih =>
    have h := ih (q.stepField c)
    have h2 := stepField_custom q c
    simp only [queryBuilder.scanFields, List.foldl_cons] at h ⊢
    rw [h.1, h.2.1, h.2.2, h2.1, h2.2.1, h2.2.2]
    exact ⟨rfl, rfl, rfl⟩

theorem applyOptions_fields (opts : List Option') (q0 : queryBuilder) :
    let q := opts.foldl (fun qb opt => opt.apply qb) q0
    q.page = q0.page ∧ q.limit = q0.limit ∧ q.sortBy = q0.sortBy ∧
    q.customWhereClause = q0.customWhereClause ∧
    q.customWhereClauseArgs = q0.customWhereClauseArgs ∧
    q.args = q0.args ∧ q.whereClause = q0.whereClause ∧
    (q.extraLimit = q0.extraLimit ∨ q.extraLimit = 1) := by
  induction opts generalizing q0 with
  | nil => simp
  | cons o rest ih =>
    have h := ih (o.apply q0)
    cases o
    simp only [List.foldl_cons, Option'.apply] at h ⊢
    refine ⟨h.1, h.2.1, h.2.2.1, h.2.2.2.1, h.2.2.2.2.1, h.2.2.2.2.2.1, h.2.2.2.2.2.2.1, ?_⟩
    rcases h.2.2.2.2.2.2.2 with h | h
    · right; exact h
    · right; exact h

theorem New_fields (opts : List Option') :
    (New opts).page = 1 ∧ (New opts).limit = 10 ∧ (New opts).sortBy = [] ∧
    (New opts).customWhereClause = [] ∧ (New opts).customWhereClauseArgs = [] ∧
    (New opts).args = [] ∧ (New opts).whereClause = " WHERE 1=1" ∧
    ((New opts).extraLimit = 0 ∨ (New opts).extraLimit = 1) := by
  have h := applyOptions_fields opts
    { page := defaultPage, limit := defaultLimit, sortBy := [],
      customWhereClause := [], customWhereClauseArgs := [],
      extraLimit := 0, args := [], whereClause := " WHERE 1=1" }
  simpa [New, defaultPage, defaultLimit] using h

theorem digitChar_ne_placeholder (k : Nat) (hk : k < 10) : Nat.digitChar k ≠ '?' := by
  interval_cases k <;> decide

theorem toDigitsCore_no_placeholder (fuel n : Nat) (ds : List Char) (h : '?' ∉ ds) :
    '?' ∉ Nat.toDigitsCore 10 fuel n ds := by
  induction fuel generalizing n ds with
  | zero => simpa [Nat.toDigitsCore] using h
  | succ f ih =>
    have hd : '?' ∉ Nat.digitChar (n % 10) :: ds := by
      intro hm
      rcases List.mem_cons.mp hm with h1 | h1
      · exact digitChar_ne_placeholder (n % 10) (Nat.mod_lt _ (by decide)) h1.symm
      · exact h h1
    unfold Nat.toDigitsCore
    by_cases h0 : n / 10 = 0
    · simpa [h0] using hd
    · simp only [h0, if_false]
      exact ih _ _ hd

theorem natRepr_no_placeholder (n : Nat) : '?' ∉ (Nat.repr n).data := by
  simp only [Nat.repr, Nat.toDigits, List.asString]
  exact toDigitsCore_no_placeholder _ _ _ (by simp)

theorem fmtInt_no_placeholder (n : Int) : countPlaceholders (fmtInt n) = 0 := by
  unfold countPlaceholders fmtInt
  rw [List.count_eq_zero]
  cases n with
  | ofNat m => exact natRepr_no_placeholder m
  | negSucc m =>
    show '?' ∉ ("-" ++ Nat.repr (m + 1)).data
    rw [String.data_append]
    intro hm
    rcases List.mem_append.mp hm with h1 | h1
    · revert h1; decide
    · exact natRepr_no_placeholder _ h1

theorem makeLimitClause_no_placeholder (q : queryBuilder) :
    countPlaceholders q.makeLimitClause = 0 := by
  unfold queryBuilder.makeLimitClause
  have h1 : countPlaceholders " LIMIT " = 0 := by decide
  have h2 : countPlaceholders ", " = 0 := by decide
  simp only [countPlaceholders_append, fmtInt_no_placeholder, h1, h2]

theorem orderByLoop_some (l : List String) (i : Nat) (acc : String)
    (h : ∀ v ∈ l, v ≠ "") : ∃ s, orderByLoop i l acc = some s := by
  induction l generalizing i acc with
  | nil => exact ⟨acc, rfl⟩
  | cons v rest ih =>
    have hv : v ≠ "" := h v (List.mem_cons_self _ _)
    have hr : ∀ w ∈ rest, w ≠ "" := fun w hw => h w (List.mem_cons_of_mem _ hw)
    unfold orderByLoop
    cases hd : v.data with
    | nil => exact absurd (String.ext hd) hv
    | cons ch tail =>
      simp only
      by_cases hc : ch = '-'
      · simp only [hc, if_true]; exact ih _ _ hr
      · simp only [hc, if_false]; exact ih _ _ hr

theorem orderByLoop_count (l : List String) (i : Nat) (acc s : String)
    (h : ∀ v ∈ l, '?' ∉ v.data) (hs : orderByLoop i l acc = some s) :
    countPlaceholders s = countPlaceholders acc := by
  induction l generalizing i acc with
  | nil => simp only [orderByLoop, Option.some.injEq] at hs; rw [hs]
  | cons v rest ih =>
    have hv : '?' ∉ v.data := h v (List.mem_cons_self _ _)
    have hr : ∀ w ∈ rest, '?' ∉ w.data := fun w hw => h w (List.mem_cons_of_mem _ hw)
    have hsep : countPlaceholders (if i > 0 then acc ++ ", " else acc) = countPlaceholders acc := by
      by_cases hi : i > 0
      · have hc0 : countPlaceholders ", " = 0 := by decide
        simp only [hi, if_true, countPlaceholders_append, hc0, Nat.add_zero]
      · simp only [hi, if_false]
    unfold orderByLoop at hs
    cases hd : v.data with
    | nil => simp [hd] at hs
    | cons ch tail =>
      rw [hd] at hv
      have ht : '?' ∉ tail := fun hm => hv (List.mem_cons_of_mem _ hm)
      simp only [hd] at hs
      by_cases hc : ch = '-'
      · simp only [hc, if_true] at hs
        rw [ih _ _ hr hs, countPlaceholders_append, countPlaceholders_append, hsep]
        have h1 : countPlaceholders (String.mk tail) = 0 := by
          simpa [countPlaceholders, List.count_eq_zero] using ht
        have h2 : countPlaceholders " DESC" = 0 := by decide
        rw [h1, h2]; rfl
      · simp only [hc, if_false] at hs
        rw [ih _ _ hr hs, countPlaceholders_append, countPlaceholders_append, hsep]
        have h1 : countPlaceholders v = 0 := by
          simpa [countPlaceholders, List.count_eq_zero, hd] using hv
        have h2 : countPlaceholders " ASC" = 0 := by decide
        rw [h1, h2]; rfl

theorem stepField_sortBy_mem (q : queryBuilder) (c : cursor) (v : String)
    (hv : v ∈ (q.stepField c).sortBy) :
    v ∈ q.sortBy ∨ v ∈ (if c.IsSortBy then handleParamShortBy c.field else []) := by
  unfold queryBuilder.stepField at hv
  by_cases h1 : c.IsPage <;> by_cases h2 : c.IsLimit <;> by_cases h3 : c.IsSortBy <;>
    by_cases h4 : c.IsEmpty <;> by_cases h5 : c.Make.2.2 <;>
    simp [h1, h2, h3, h4, h5] at hv ⊢ <;> tauto

theorem scanFields_sortBy_mem (r : Record) (q : queryBuilder) (v : String)
    (hv : v ∈ (q.scanFields r).sortBy) : v ∈ q.sortBy ∨ v ∈ sortEntries r := by
  induction r generalizing q with
  | nil => left; simpa [queryBuilder.scanFields] using hv
  | cons c rest ih =>
    simp only [queryBuilder.scanFields, List.foldl_cons] at hv
    rcases ih (q.stepField c) hv with h | h
    · rcases stepField_sortBy_mem q c v h with h' | h'
      · left; exact h'
      · right; unfold sortEntries; exact List.mem_append_left _ h'
    · right; unfold sortEntries; exact List.mem_append_right _ h

theorem makeOrderByClause_some (q : queryBuilder) (h : ∀ v ∈ q.sortBy, v ≠ "") :
    ∃ s, q.makeOrderByClause = some s := by
  unfold queryBuilder.makeOrderByClause
  by_cases hl : q.sortBy.length > 0
  · simp only [hl, if_true]; exact orderByLoop_some _ _ _ h
  · simp only [hl, if_false]; exact ⟨"", rfl⟩

theorem makeOrderByClause_count (q : queryBuilder) (s : String)
    (h : ∀ v ∈ q.sortBy, '?' ∉ v.data) (hs : q.makeOrderByClause = some s) :
    countPlaceholders s = 0 := by
  unfold queryBuilder.makeOrderByClause at hs
  by_cases hl : q.sortBy.length > 0
  · simp only [hl, if_true] at hs
    rw [orderByLoop_count _ _ _ _ h hs]; decide
  · simp only [hl, if_false, Option.some.injEq] at hs
    rw [← hs]; decide

/-- The outcome of `Build` on a pointer to a struct, once the order-by part is
known to render. -/
theorem Build_struct (q : queryBuilder) (r : Record) (orderBy : String)
    (h : (q.scanFields r).appendCustomWhere.makeOrderByClause = some orderBy) :
    q.Build (.pointer (.struct r)) =
      some (⟨(q.scanFields r).appendCustomWhere.whereClause ++ orderBy ++
              (q.scanFields r).appendCustomWhere.makeLimitClause,
             (q.scanFields r).appendCustomWhere.args, none⟩,
            (q.scanFields r).appendCustomWhere) := by
  simp only [queryBuilder.Build, h]

/-- On a fresh builder without custom clauses, and a record whose sort entries
are all non-empty, `Build` returns the base predicate, the clauses of the
contributing fields in declared order, the order-by part and the limit part,
with the arguments of the same fields in the same order. -/
theorem Build_fresh_shape (opts : List Option') (r : Record)
    (hs : ∀ v ∈ sortEntries r, v ≠ "") :
    ∃ q' orderBy, q'.makeOrderByClause = some orderBy ∧
      q'.sortBy = ((New opts).scanFields r).sortBy ∧
      q'.page = ((New opts).scanFields r).page ∧
      q'.limit = ((New opts).scanFields r).limit ∧
      q'.extraLimit = (New opts).extraLimit ∧
      (New opts).Build (.pointer (.struct r)) =
        some (⟨" WHERE 1=1" ++ fieldClauses r ++ orderBy ++ q'.makeLimitClause,
               fieldArgs r, none⟩, q') := by
  obtain ⟨hp, hl, hsb, hc, hca, ha, hw, he⟩ := New_fields opts
  obtain ⟨sc1, sc2, sc3⟩ := scanFields_custom r (New opts)
  have hne : ∀ v ∈ ((New opts).scanFields r).appendCustomWhere.sortBy, v ≠ "" := by
    intro v hv
    have hv' : v ∈ ((New opts).scanFields r).sortBy := hv
    rcases scanFields_sortBy_mem r _ v hv' with h | h
    · rw [hsb] at h; cases h
    · exact hs v h
  obtain ⟨ob, hob⟩ := makeOrderByClause_some _ hne
  refine ⟨((New opts).scanFields r).appendCustomWhere, ob, hob, rfl, rfl, rfl, sc3, ?_⟩
  rw [Build_struct _ _ _ hob]
  have hwc : ((New opts).scanFields r).appendCustomWhere.whereClause =
      " WHERE 1=1" ++ fieldClauses r := by
    simp only [queryBuilder.appendCustomWhere, sc1, hc, List.foldl_nil]
    rw [scanFields_whereClause, hw]
  have hargs : ((New opts).scanFields r).appendCustomWhere.args = fieldArgs r := by
    simp only [queryBuilder.appendCustomWhere, sc2, hca, List.append_nil]
    rw [scanFields_args, ha, List.nil_append]
  rw [hwc, hargs]

/-! ## The conversion of one field -/

theorem Make_single_value (c : cursor) (v : Value) (hv : c.field.scalarArg = some v)
    (hns : c.Make.2.2 = false) :
    c.Make = (" AND " ++ c.db ++ " " ++ c.renderedOperand ++ " ?", [v], false) := by
  rcases c with ⟨f, p, d, i⟩
  cases f <;> simp only [Value.scalarArg, Option.some.injEq, reduceCtorEq] at hv <;> subst hv
  all_goals
    simp only [cursor.Make, cursor.makeClausePrimitiveType, cursor.makeClauseTimeType,
      cursor.makeClauseSqlNullType, cursor.makeClause, cursor.makeClauseString,
      cursor.makeClauseTime, cursor.makeClauseNullTime, cursor.makeClauseNullString,
      cursor.makeClauseNullInt32, cursor.makeClauseNullInt64, cursor.makeClauseNullFloat64,
      cursor.renderedOperand, whereClauseFmt] at hns ⊢
  all_goals first
    | rfl
    | (split at hns
       · simp at hns
       · rename_i h; first | (simp at h; simp [h]) | simp [h])

theorem Make_elems (c : cursor) (es : List Value) (he : c.field.elems = some es) :
    c.Make = ((sqlxIn (whereClauseMultiFmt c.db c.GetOperandMulti) es).1,
              (sqlxIn (whereClauseMultiFmt c.db c.GetOperandMulti) es).2,
              decide ((sqlxIn (whereClauseMultiFmt c.db c.GetOperandMulti) es).2.length < 1)) := by
  rcases c with ⟨f, p, d, i⟩
  cases f <;> simp only [Value.elems, Option.some.injEq, reduceCtorEq] at he <;> subst he <;>
    simp only [cursor.Make, cursor.makeClauseArrayType, cursor.makeClauseMulti]

theorem Make_unsupported (c : cursor) (h1 : c.field.scalarArg = none)
    (h2 : c.field.elems = none) : c.Make = ("", [], true) := by
  rcases c with ⟨f, p, d, i⟩
  cases f <;> simp only [Value.scalarArg, Value.elems, reduceCtorEq] at h1 h2 <;>
    simp only [cursor.Make]

theorem splitAtPlaceholder_spec (l b a : List Char) (h : splitAtPlaceholder l = some (b, a)) :
    l = b ++ '?' :: a ∧ '?' ∉ b := by
  induction l generalizing b with
  | nil => simp [splitAtPlaceholder] at h
  | cons ch rest ih =>
    unfold splitAtPlaceholder at h
    by_cases hc : ch = '?'
    · simp only [hc, if_true, Option.some.injEq, Prod.mk.injEq] at h
      obtain ⟨hb, ha⟩ := h
      subst hb ha hc
      simp
    · simp only [hc, if_false, Option.map_eq_some'] at h
      obtain ⟨⟨b', a'⟩, hsp, heq⟩ := h
      simp only [Prod.mk.injEq] at heq
      obtain ⟨hb, ha⟩ := heq
      subst hb ha
      obtain ⟨h1, h2⟩ := ih b' hsp
      refine ⟨by rw [h1]; rfl, ?_⟩
      intro hm
      rcases List.mem_cons.mp hm with h3 | h3
      · exact hc h3.symm
      · exact h2 h3

theorem splitAtPlaceholder_append (b a : List Char) (hb : '?' ∉ b) :
    splitAtPlaceholder (b ++ '?' :: a) = some (b, a) := by
  induction b with
  | nil => simp [splitAtPlaceholder]
  | cons ch rest ih =>
    have hc : ch ≠ '?' := fun h => hb (by rw [h]; exact List.mem_cons_self _ _)
    have hr : '?' ∉ rest := fun h => hb (List.mem_cons_of_mem _ h)
    rw [List.cons_append]
    unfold splitAtPlaceholder
    simp only [hc, if_false]
    rw [ih hr]; rfl

theorem extraPlaceholders_count (k : Nat) : (extraPlaceholders k).count '?' = k := by
  induction k with
  | zero => rfl
  | succ k ih =>
    simp only [extraPlaceholders, List.count_append, ih]
    have : List.count '?' [',', ' ', '?'] = 1 := by decide
    rw [this]; omega

/-- Whatever the query, a result of `sqlxIn` that carries arguments has one `?`
for each of them. -/
theorem sqlxIn_parity (query : String) (es : List Value)
    (h : ¬ (sqlxIn query es).2.length < 1) :
    countPlaceholders (sqlxIn query es).1 = (sqlxIn query es).2.length := by
  unfold sqlxIn at h ⊢
  by_cases h0 : es.length = 0
  · simp [h0] at h
  · simp only [h0, if_false] at h ⊢
    cases hsp : splitAtPlaceholder query.data with
    | none => simp [hsp] at h
    | some p =>
      obtain ⟨b, a⟩ := p
      simp only [hsp] at h ⊢
      by_cases ha : '?' ∈ a
      · simp [ha] at h
      · simp only [ha, if_false, countPlaceholders, List.count_append,
          extraPlaceholders_count]
        have hb := (splitAtPlaceholder_spec _ _ _ hsp).2
        rw [List.count_eq_zero.mpr hb, List.count_eq_zero.mpr ha]
        have : List.count '?' ['?'] = 1 := by decide
        rw [this]; omega

theorem GetOperand_cases (c : cursor) :
    c.GetOperand = ">" ∨ c.GetOperand = ">=" ∨ c.GetOperand = "<" ∨ c.GetOperand = "<=" ∨
      c.GetOperand = "!=" ∨ c.GetOperand = "=" := by
  unfold cursor.GetOperand
  split_ifs <;> simp

theorem renderedOperand_count (c : cursor) : countPlaceholders c.renderedOperand = 0 := by
  have h := GetOperand_cases c
  unfold cursor.renderedOperand
  split
  · split_ifs with h1
    · decide
    · rcases h with h | h | h | h | h | h <;> rw [h] <;> decide
  · split_ifs with h1
    · decide
    · rcases h with h | h | h | h | h | h <;> rw [h] <;> decide
  · rcases h with h | h | h | h | h | h <;> rw [h] <;> decide

/-- A field that is not skipped and whose column tag holds no `?` emits as
many `?` as arguments. -/
theorem Make_parity (c : cursor) (hdb : '?' ∉ c.db.data) (hns : c.Make.2.2 = false) :
    countPlaceholders c.Make.1 = c.Make.2.1.length := by
  cases hv : c.field.scalarArg with
  | some v =>
    rw [Make_single_value c v hv hns]
    simp only [countPlaceholders_append, renderedOperand_count, List.length_singleton]
    have h1 : countPlaceholders c.db = 0 := by
      simpa [countPlaceholders, List.count_eq_zero] using hdb
    have h2 : countPlaceholders " AND " = 0 := by decide
    have h3 : countPlaceholders " " = 0 := by decide
    have h4 : countPlaceholders " ?" = 1 := by decide
    rw [h1, h2, h3, h4]
  | none =>
    cases he : c.field.elems with
    | some es =>
      rw [Make_elems c es he] at hns ⊢
      simp only [decide_eq_false_iff_not] at hns
      exact sqlxIn_parity _ _ hns
    | none =>
      rw [Make_unsupported c hv he] at hns
      simp at hns

theorem fieldClauses_parity (r : Record) (hdb : ∀ c ∈ r, '?' ∉ c.db.data) :
    countPlaceholders (fieldClauses r) = (fieldArgs r).length := by
  induction r with
  | nil => decide
  | cons c rest ih =>
    have hc : '?' ∉ c.db.data := hdb c (List.mem_cons_self _ _)
    have hr := ih (fun d hd => hdb d (List.mem_cons_of_mem _ hd))
    simp only [fieldClauses, fieldArgs, countPlaceholders_append, List.length_append, hr]
    by_cases hcon : c.contributes
    · have hns : c.Make.2.2 = false := by
        simp only [cursor.contributes, Bool.and_eq_true, Bool.not_eq_true'] at hcon
        exact hcon.2
      simp only [hcon, if_true, Make_parity c hc hns]
    · simp only [hcon]
      rfl

/-! ## Claims -/

/-- C1. The statement of the claim fails at one input: a record whose sort list
holds an empty string. `makeOrderByClause` reads `v[0]` of that entry and the
call panics, so `Build` returns neither a nil error nor a fragment. -/
theorem Build_empty_sort_entry_panics :
    (New []).Build (.pointer (.struct [⟨.strs [""], "short_by", "", false⟩])) = none := by
  decide

/-- C2. For every argument that is not a pointer, or is a nil pointer, `Build`
returns a non-nil error, the empty fragment and no arguments, and the builder
it leaves is the builder it was given, field for field. -/
theorem Build_rejects_non_pointer (q : queryBuilder) (p : Param)
    (h : p.isNonNilPointer = false) :
    q.Build p = some (⟨"", [], some "should be a pointer and cannot be nil"⟩, q) := by
  cases p with
  | untypedNil => rfl
  | nonPointer v => rfl
  | nilPointer => rfl
  | pointer v => simp [Param.isNonNilPointer] at h

theorem Build_rejects_non_pointer_witness :
    (Param.nonPointer (.struct [⟨.str "test", "string", "string", false⟩])).isNonNilPointer = false ∧
    ((New []).AddWhereClause "ping = ?" [.str "pong"]).Build
        (.nonPointer (.struct [⟨.str "test", "string", "string", false⟩])) =
      some (⟨"", [], some "should be a pointer and cannot be nil"⟩,
            (New []).AddWhereClause "ping = ?" [.str "pong"]) :=
  ⟨rfl, Build_rejects_non_pointer _ _ rfl⟩

/-- C3, as stated, fails: a numeric field whose column tag is `a?` yields a
fragment with two `?` and one argument. -/
theorem Build_parity_fails_on_placeholder_in_column :
    ((New []).Build (.pointer (.struct [⟨.int 0, "a", "a?", false⟩]))).map Prod.fst =
        some ⟨" WHERE 1=1 AND a? = ? LIMIT 0, 10", [.int 0], none⟩ ∧
      countPlaceholders " WHERE 1=1 AND a? = ? LIMIT 0, 10" ≠ [Value.int 0].length := by
  decide

/-- C3, amended. For a builder fresh from `New` and a record in which no column
tag contains `?` and every sort entry is non-empty and contains no `?`, `Build`
returns a nil error and a fragment whose number of `?` equals the length of the
returned argument list. -/
theorem Build_placeholder_parity (opts : List Option') (r : Record)
    (hdb : ∀ c ∈ r, '?' ∉ c.db.data)
    (hs : ∀ v ∈ sortEntries r, v ≠ "" ∧ '?' ∉ v.data) :
    ∃ res q', (New opts).Build (.pointer (.struct r)) = some (res, q') ∧
      res.err = none ∧ countPlaceholders res.sqlClause = res.args.length := by
  obtain ⟨q', ob, hob, hsb, _, _, _, hB⟩ :=
    Build_fresh_shape opts r (fun v hv => (hs v hv).1)
  refine ⟨_, q', hB, rfl, ?_⟩
  have hsort : ∀ v ∈ q'.sortBy, '?' ∉ v.data := by
    intro v hv
    rw [hsb] at hv
    rcases scanFields_sortBy_mem r _ v hv with h | h
    · rw [(New_fields opts).2.2.1] at h; cases h
    · exact (hs v h).2
  have h0 : countPlaceholders " WHERE 1=1" = 0 := by decide
  simp only [countPlaceholders_append, makeOrderByClause_count q' ob hsort hob,
    makeLimitClause_no_placeholder, fieldClauses_parity r hdb, h0]
  omega

theorem Build_placeholder_parity_witness :
    ((∀ c ∈ ([⟨.str "test", "string", "string", false⟩, ⟨.strs ["x", "y"], "s__nin", "s", false⟩,
        ⟨.strs ["-created_at", "status"], "short_by", "", false⟩] : Record), '?' ∉ c.db.data) ∧
     (∀ v ∈ sortEntries [⟨.str "test", "string", "string", false⟩, ⟨.strs ["x", "y"], "s__nin", "s", false⟩,
        ⟨.strs ["-created_at", "status"], "short_by", "", false⟩], v ≠ "" ∧ '?' ∉ v.data)) ∧
    ∃ res q', (New [.WithExtraLimit]).Build (.pointer (.struct
        [⟨.str "test", "string", "string", false⟩, ⟨.strs ["x", "y"], "s__nin", "s", false⟩,
         ⟨.strs ["-created_at", "status"], "short_by", "", false⟩])) = some (res, q') ∧
      res.err = none ∧ countPlaceholders res.sqlClause = res.args.length :=
  ⟨⟨by decide, by decide⟩, Build_placeholder_parity _ _ (by decide) (by decide)⟩

theorem HasSuffix_iff (s suffix : String) :
    HasSuffix s suffix = true ↔ suffix.data <:+ s.data := by
  unfold HasSuffix
  rw [Bool.and_eq_true, decide_eq_true_iff, decide_eq_true_iff]
  constructor
  · rintro ⟨_, h⟩
    rw [← h]; exact List.drop_suffix _ _
  · intro h
    exact ⟨h.length_le, (List.suffix_iff_eq_drop.mp h).symm⟩

/-- Two suffixes of one string agree on their last characters, as far as the
shorter of the two reaches. -/
theorem HasSuffix_agree (s a b : String) (ha : HasSuffix s a = true)
    (hb : HasSuffix s b = true) :
    a.data.reverse.take (min a.data.length b.data.length) =
      b.data.reverse.take (min a.data.length b.data.length) := by
  obtain ⟨x, hx⟩ := (HasSuffix_iff s a).mp ha
  obtain ⟨y, hy⟩ := (HasSuffix_iff s b).mp hb
  have h1 : s.data.reverse = a.data.reverse ++ x.reverse := by
    rw [← hx, List.reverse_append]
  have h2 : s.data.reverse = b.data.reverse ++ y.reverse := by
    rw [← hy, List.reverse_append]
  have e1 : (s.data.reverse).take (min a.data.length b.data.length) =
      a.data.reverse.take (min a.data.length b.data.length) := by
    rw [h1]
    exact List.take_append_of_le_length (by rw [List.length_reverse]; exact Nat.min_le_left _ _)
  have e2 : (s.data.reverse).take (min a.data.length b.data.length) =
      b.data.reverse.take (min a.data.length b.data.length) := by
    rw [h2]
    exact List.take_append_of_le_length (by rw [List.length_reverse]; exact Nat.min_le_right _ _)
  rw [← e1, ← e2]

/-- C4, as stated, fails for text: a non-empty text field whose inferred operand
is `=` is rendered with `LIKE`, not with the operand `GetOperand` returns. -/
theorem text_field_not_rendered_with_inferred_operand :
    (⟨.str "x", "name", "name", false⟩ : cursor).GetOperand = "=" ∧
    (⟨.str "x", "name", "name", false⟩ : cursor).Make = (" AND name LIKE ?", [.str "x"], false) ∧
    (⟨.str "x", "name", "name", false⟩ : cursor).Make ≠ (" AND name = ?", [.str "x"], false) := by
  decide

/-- C4, amended. `GetOperand` returns `>` for a name ending in `__gt`, `>=` for
`__gte`, `<` for `__lt`, `<=` for `__lte`, `!=` for `__neq` and `=` for every
other name; and a supported single-value field that is not skipped yields
exactly `" AND <column> <op> ?"` with its value (the inner value of a nullable
wrapper) as the sole argument, where `<op>` is that operand, except that text
and nullable text turn the operand `=` into `LIKE`. -/
theorem GetOperand_mapping_and_single_value_clause (c : cursor) :
    (HasSuffix c.param "__gt" = true → c.GetOperand = ">") ∧
    (HasSuffix c.param "__gte" = true → c.GetOperand = ">=") ∧
    (HasSuffix c.param "__lt" = true → c.GetOperand = "<") ∧
    (HasSuffix c.param "__lte" = true → c.GetOperand = "<=") ∧
    (HasSuffix c.param "__neq" = true → c.GetOperand = "!=") ∧
    (HasSuffix c.param "__gt" = false → HasSuffix c.param "__gte" = false →
      HasSuffix c.param "__lt" = false → HasSuffix c.param "__lte" = false →
      HasSuffix c.param "__neq" = false → c.GetOperand = "=") ∧
    (∀ v, c.field.scalarArg = some v → c.Make.2.2 = false →
      c.Make = (" AND " ++ c.db ++ " " ++
        (match c.field with
         | .str _ | .nullString _ _ => if c.GetOperand = "=" then "LIKE" else c.GetOperand
         | _ => c.GetOperand) ++ " ?", [v], false)) := by
  have ex : ∀ a b : String, HasSuffix c.param a = true →
      a.data.reverse.take (min a.data.length b.data.length) ≠
        b.data.reverse.take (min a.data.length b.data.length) →
      HasSuffix c.param b = false := by
    intro a b ha hne
    cases hb : HasSuffix c.param b with
    | false => rfl
    | true => exact absurd (HasSuffix_agree c.param a b ha hb) hne
  refine ⟨?_, ?_, ?_, ?_, ?_, ?_, ?_⟩
  · intro h; simp [cursor.GetOperand, h]
  · intro h
    have h1 := ex "__gte" "__gt" h (by decide)
    simp [cursor.GetOperand, h, h1]
  · intro h
    have h1 := ex "__lt" "__gt" h (by decide)
    have h2 := ex "__lt" "__gte" h (by decide)
    simp [cursor.GetOperand, h, h1, h2]
  · intro h
    have h1 := ex "__lte" "__gt" h (by decide)
    have h2 := ex "__lte" "__gte" h (by decide)
    have h3 := ex "__lte" "__lt" h (by decide)
    simp [cursor.GetOperand, h, h1, h2, h3]
  · intro h
    have h1 := ex "__neq" "__gt" h (by decide)
    have h2 := ex "__neq" "__gte" h (by decide)
    have h3 := ex "__neq" "__lt" h (by decide)
    have h4 := ex "__neq" "__lte" h (by decide)
    simp [cursor.GetOperand, h, h1, h2, h3, h4]
  · intro h1 h2 h3 h4 h5
    simp [cursor.GetOperand, h1, h2, h3, h4, h5]
  · intro v hv hns
    exact Make_single_value c v hv hns

theorem GetOperand_mapping_and_single_value_clause_witness :
    HasSuffix "int64__gt" "__gt" = true ∧
    (⟨.nullInt64 10 true, "int64__gt", "int64", false⟩ : cursor).GetOperand = ">" ∧
    (⟨.nullInt64 10 true, "int64__gt", "int64", false⟩ : cursor).Make =
      (" AND int64 > ?", [.int64 10], false) :=
  ⟨by decide,
   (GetOperand_mapping_and_single_value_clause ⟨.nullInt64 10 true, "int64__gt", "int64", false⟩).1
     (by decide),
   (GetOperand_mapping_and_single_value_clause
     ⟨.nullInt64 10 true, "int64__gt", "int64", false⟩).2.2.2.2.2.2 (.int64 10) rfl (by decide)⟩

theorem scanFields_inert (q : queryBuilder) (r : Record)
    (h : ∀ c ∈ r, q.stepField c = q) : q.scanFields r = q := by
  induction r with
  | nil => rfl
  | cons c rest ih =>
    simp only [queryBuilder.scanFields, List.foldl_cons]
    rw [h c (List.mem_cons_self _ _)]
    exact ih (fun d hd => h d (List.mem_cons_of_mem _ hd))

theorem Build_default_of_inert (r : Record) (h : ∀ c ∈ r, (New []).stepField c = New []) :
    (New []).Build (.pointer (.struct r)) =
      some (⟨" WHERE 1=1 LIMIT 0, 10", [], none⟩, New []) := by
  have hs := scanFields_inert (New []) r h
  simp only [queryBuilder.Build, hs]
  decide

theorem stepField_excluded (q : queryBuilder) (c : cursor) (h : c.excludedByTags = true) :
    q.stepField c = q := by
  simp only [cursor.excludedByTags, Bool.and_eq_true, Bool.not_eq_true'] at h
  obtain ⟨⟨⟨h1, h2⟩, h3⟩, h4⟩ := h
  simp [queryBuilder.stepField, h1, h2, h3, h4]

theorem stepField_skipped_value (c : cursor) (hm : c.Make.2.2 = true)
    (hp : handleParamPage c.field = 1) (hl : handleParamLimit c.field = 10)
    (hs : handleParamShortBy c.field = []) : (New []).stepField c = New [] := by
  unfold queryBuilder.stepField
  by_cases h1 : c.IsPage <;> by_cases h2 : c.IsLimit <;> by_cases h3 : c.IsSortBy <;>
    by_cases h4 : c.IsEmpty <;>
    simp [h1, h2, h3, h4, hm, hp, hl, hs, New, defaultPage, defaultLimit]

/-- A text field declared `string` is skipped, with no clause and no arguments,
exactly when the text is empty; otherwise it yields `" AND <column> <op> ?"`
with the text as sole argument, `<op>` being `LIKE` when the inferred operand is
`=` and the inferred operand otherwise. A text held in a field declared with an
interface type is never skipped. A record in which every field either is
declared `string` and holds the empty text or is excluded by its tags builds, on
the default builder, to `" WHERE 1=1 LIMIT 0, 10"` with no arguments. -/
theorem text_field_conversion (s param db : String) (iface : Bool) (r : Record) :
    ((⟨.str s, param, db, iface⟩ : cursor).Make.2.2 = true ↔ (iface = false ∧ s = "")) ∧
    (iface = false → s = "" → (⟨.str s, param, db, iface⟩ : cursor).Make = ("", [], true)) ∧
    ((iface = true ∨ s ≠ "") → (⟨.str s, param, db, iface⟩ : cursor).Make =
      (" AND " ++ db ++ " " ++
        (if (⟨.str s, param, db, iface⟩ : cursor).GetOperand = "=" then "LIKE"
         else (⟨.str s, param, db, iface⟩ : cursor).GetOperand) ++ " ?", [.str s], false)) ∧
    ((∀ c ∈ r, (c.field = .str "" ∧ c.iface = false) ∨ c.excludedByTags = true) →
      (New []).Build (.pointer (.struct r)) =
        some (⟨" WHERE 1=1 LIMIT 0, 10", [], none⟩, New [])) := by
  have hfs : (⟨.str s, param, db, iface⟩ : cursor).fieldString s = "" ↔
      (iface = false ∧ s = "") := by
    cases iface
    · simp [cursor.fieldString]
    · simp only [cursor.fieldString, if_true, reduceCtorEq, false_and, iff_false]
      decide
  refine ⟨?_, ?_, ?_, ?_⟩
  · by_cases h : (⟨.str s, param, db, iface⟩ : cursor).fieldString s = ""
    · constructor
      · intro _; exact hfs.mp h
      · intro _
        simp [cursor.Make, cursor.makeClausePrimitiveType, cursor.makeClauseString, h]
    · constructor
      · intro hm
        simp [cursor.Make, cursor.makeClausePrimitiveType, cursor.makeClauseString, h,
          cursor.makeClause] at hm
      · intro hh; exact absurd (hfs.mpr hh) h
  · intro hi hs
    have h := hfs.mpr ⟨hi, hs⟩
    simp [cursor.Make, cursor.makeClausePrimitiveType, cursor.makeClauseString, h]
  · intro hor
    have h : ¬ (⟨.str s, param, db, iface⟩ : cursor).fieldString s = "" := by
      intro hh
      obtain ⟨h1, h2⟩ := hfs.mp hh
      rcases hor with h3 | h3
      · rw [h1] at h3; cases h3
      · exact h3 h2
    simp [cursor.Make, cursor.makeClausePrimitiveType, cursor.makeClauseString,
      cursor.makeClause, whereClauseFmt, h]
  · intro h
    apply Build_default_of_inert
    intro c hc
    rcases h c hc with ⟨hf, hi⟩ | hx
    · apply stepField_skipped_value <;>
        simp [hf, hi, cursor.Make, cursor.makeClausePrimitiveType, cursor.makeClauseString,
          cursor.fieldString, handleParamPage, handleParamLimit, handleParamShortBy,
          defaultPage, defaultLimit]
    · exact stepField_excluded _ c hx

/-- C5. The claim fails at a text held in a field declared `interface{}`:
`makeClauseString` tests `c.field.String()`, which for such a field is the
description `<interface {} Value>` and not the text, so the empty string is not
skipped and the record builds with a `LIKE` clause on the empty string. The same
field declared `string` is skipped. -/
theorem interface_text_field_not_skipped :
    (⟨.str "", "name", "name", true⟩ : cursor).Make =
        (" AND name LIKE ?", [.str ""], false) ∧
    ((New []).Build (.pointer (.struct [⟨.str "", "name", "name", true⟩]))).map
        (fun x => x.1) = some ⟨" WHERE 1=1 AND name LIKE ? LIMIT 0, 10", [.str ""], none⟩ ∧
    (⟨.str "", "name", "name", false⟩ : cursor).Make = ("", [], true) ∧
    ((New []).Build (.pointer (.struct [⟨.str "", "name", "name", false⟩]))).map
        (fun x => x.1) = some ⟨" WHERE 1=1 LIMIT 0, 10", [], none⟩ := by
  decide

/-- C6, as stated, fails: a field of type `int16` (an integer width the type
switch of `Make` does not list) is skipped, with no clause and no argument. -/
theorem int16_field_is_skipped :
    (⟨.int16 5, "n", "n", false⟩ : cursor).Make = ("", [], true) ∧
    (⟨.uint8 5, "n", "n", false⟩ : cursor).Make = ("", [], true) := by
  decide

/-- C6, amended. A filter field of type `int`, `int32`, `int64`, `float32` or
`float64` is never skipped, whatever its value, zero included: it yields exactly
`" AND <column> <operand> ?"` with the value, under its own type, as the sole
argument. A field of type `int8`, `int16`, `uint`, `uint8`, `uint16`, `uint32`
or `uint64` is skipped, whatever its value, with no clause and no argument. -/
theorem numeric_field_conversion (param db : String) (n : Int) (bits m : Nat)
    (iface : Bool) :
    ((⟨.int n, param, db, iface⟩ : cursor).Make =
      (" AND " ++ db ++ " " ++ (⟨.int n, param, db, iface⟩ : cursor).GetOperand ++ " ?",
        [.int n], false) ∧
     (⟨.int32 n, param, db, iface⟩ : cursor).Make =
      (" AND " ++ db ++ " " ++ (⟨.int32 n, param, db, iface⟩ : cursor).GetOperand ++ " ?",
        [.int32 n], false) ∧
     (⟨.int64 n, param, db, iface⟩ : cursor).Make =
      (" AND " ++ db ++ " " ++ (⟨.int64 n, param, db, iface⟩ : cursor).GetOperand ++ " ?",
        [.int64 n], false) ∧
     (⟨.float32 bits, param, db, iface⟩ : cursor).Make =
      (" AND " ++ db ++ " " ++ (⟨.float32 bits, param, db, iface⟩ : cursor).GetOperand ++ " ?",
        [.float32 bits], false) ∧
     (⟨.float64 bits, param, db, iface⟩ : cursor).Make =
      (" AND " ++ db ++ " " ++ (⟨.float64 bits, param, db, iface⟩ : cursor).GetOperand ++ " ?",
        [.float64 bits], false)) ∧
    ((⟨.int8 n, param, db, iface⟩ : cursor).Make = ("", [], true) ∧
     (⟨.int16 n, param, db, iface⟩ : cursor).Make = ("", [], true) ∧
     (⟨.uint m, param, db, iface⟩ : cursor).Make = ("", [], true) ∧
     (⟨.uint8 m, param, db, iface⟩ : cursor).Make = ("", [], true) ∧
     (⟨.uint16 m, param, db, iface⟩ : cursor).Make = ("", [], true) ∧
     (⟨.uint32 m, param, db, iface⟩ : cursor).Make = ("", [], true) ∧
     (⟨.uint64 m, param, db, iface⟩ : cursor).Make = ("", [], true)) := by
  refine ⟨⟨rfl, rfl, rfl, rfl, rfl⟩, ⟨rfl, rfl, rfl, rfl, rfl, rfl, rfl⟩⟩

/-- C7. A nullable text, 32-bit integer, 64-bit integer, float or timestamp
field whose validity flag is false is skipped with no clause and no arguments;
with the flag true a clause is emitted and its sole argument is the wrapped
inner value (the string, the number, the time), not the wrapper. -/
theorem nullable_field_conversion (param db s : String) (n : Int) (bits : Nat) (t : Time)
    (iface : Bool) :
    ((⟨.nullString s false, param, db, iface⟩ : cursor).Make = ("", [], true) ∧
     (⟨.nullInt32 n false, param, db, iface⟩ : cursor).Make = ("", [], true) ∧
     (⟨.nullInt64 n false, param, db, iface⟩ : cursor).Make = ("", [], true) ∧
     (⟨.nullFloat64 bits false, param, db, iface⟩ : cursor).Make = ("", [], true) ∧
     (⟨.nullTime t false, param, db, iface⟩ : cursor).Make = ("", [], true)) ∧
    ((⟨.nullString s true, param, db, iface⟩ : cursor).Make.2 = ([.str s], false) ∧
     (⟨.nullInt32 n true, param, db, iface⟩ : cursor).Make.2 = ([.int32 n], false) ∧
     (⟨.nullInt64 n true, param, db, iface⟩ : cursor).Make.2 = ([.int64 n], false) ∧
     (⟨.nullFloat64 bits true, param, db, iface⟩ : cursor).Make.2 = ([.float64 bits], false) ∧
     (⟨.nullTime t true, param, db, iface⟩ : cursor).Make.2 = ([.time t], false)) := by
  refine ⟨⟨rfl, rfl, rfl, rfl, rfl⟩, ⟨rfl, rfl, rfl, rfl, rfl⟩⟩

theorem intercalate_go_replicate (k : Nat) (acc : String) :
    String.intercalate.go acc ", " (List.replicate k "?") =
      acc ++ String.mk (extraPlaceholders k) := by
  induction k generalizing acc with
  | zero =>
    simp only [List.replicate, String.intercalate.go, extraPlaceholders]
    apply String.ext; simp [String.data_append]
  | succ k ih =>
    simp only [List.replicate, String.intercalate.go, extraPlaceholders]
    rw [ih]
    apply String.ext; simp [String.data_append]

theorem placeholderList_succ (k : Nat) :
    placeholderList (k + 1) = String.mk ('?' :: extraPlaceholders k) := by
  simp only [placeholderList, List.replicate, String.intercalate]
  rw [intercalate_go_replicate]
  apply String.ext; simp [String.data_append]

theorem GetOperandMulti_no_placeholder (c : cursor) : '?' ∉ c.GetOperandMulti.data := by
  unfold cursor.GetOperandMulti
  split_ifs <;> decide

/-- The expansion of a non-empty collection when the column holds no `?`. -/
theorem Make_collection (c : cursor) (es : List Value) (he : c.field.elems = some es)
    (hne : es ≠ []) (hdb : '?' ∉ c.db.data) :
    c.Make = (" AND " ++ c.db ++ " " ++ c.GetOperandMulti ++ " (" ++
                placeholderList es.length ++ ")", es, false) := by
  rw [Make_elems c es he]
  obtain ⟨k, hk⟩ : ∃ k, es.length = k + 1 := by
    cases es with
    | nil => exact absurd rfl hne
    | cons e rest => exact ⟨rest.length, rfl⟩
  have hb : '?' ∉ (" AND " ++ c.db ++ " " ++ c.GetOperandMulti ++ " (").data := by
    simp only [String.data_append, List.mem_append, not_or]
    exact ⟨⟨⟨⟨by decide, hdb⟩, by decide⟩, GetOperandMulti_no_placeholder c⟩, by decide⟩
  have hq : (whereClauseMultiFmt c.db c.GetOperandMulti).data =
      (" AND " ++ c.db ++ " " ++ c.GetOperandMulti ++ " (").data ++ '?' :: [')'] := by
    simp only [whereClauseMultiFmt, String.data_append]
    simp
  have hsp := splitAtPlaceholder_append _ [')'] hb
  rw [← hq] at hsp
  have h0 : ¬ es.length = 0 := by omega
  have hin : sqlxIn (whereClauseMultiFmt c.db c.GetOperandMulti) es =
      (" AND " ++ c.db ++ " " ++ c.GetOperandMulti ++ " (" ++ placeholderList es.length ++ ")",
        es) := by
    unfold sqlxIn
    simp only [h0, if_false, hsp]
    have hnm : '?' ∉ [')'] := by decide
    simp only [hnm, if_false, Prod.mk.injEq, and_true]
    rw [hk, placeholderList_succ]
    apply String.ext
    simp [String.data_append]
  rw [hin]
  have hl : ¬ es.length < 1 := by omega
  simp [hl]

theorem fieldString_ne_empty (c : cursor) (s : String) (h : s ≠ "") :
    c.fieldString s ≠ "" := by
  unfold cursor.fieldString
  split_ifs
  · decide
  · exact h

/-- C8, as stated, fails: a valid nullable text holding the empty string emits a
clause with the empty string as argument, where the plain text field with the
same tags is skipped; likewise a valid nullable timestamp holding the zero
instant emits a clause where the plain timestamp is skipped. -/
theorem valid_nullable_differs_from_plain_on_zero_value :
    (⟨.nullString "" true, "name", "name", false⟩ : cursor).Make =
        (" AND name LIKE ?", [.str ""], false) ∧
    (⟨.str "", "name", "name", false⟩ : cursor).Make = ("", [], true) ∧
    (⟨.nullTime ⟨0, 0, "UTC"⟩ true, "at", "at", false⟩ : cursor).Make =
        (" AND at = ?", [.time ⟨0, 0, "UTC"⟩], false) ∧
    (⟨.time ⟨0, 0, "UTC"⟩, "at", "at", false⟩ : cursor).Make = ("", [], true) := by
  decide

/-- C8, amended. A nullable field whose validity flag is true converts to the
same clause, arguments and skip flag as the non-nullable field with the same
tags holding the wrapped value, with the same rewrite of `=` to `LIKE` for text,
whenever that value is not one the non-nullable conversion skips: every number,
every non-empty text, every non-zero timestamp. A valid wrapper of the empty
text or of the zero timestamp is not skipped: the validity flag is the only skip
test of a nullable field. -/
theorem valid_nullable_matches_plain (param db s : String) (n : Int) (bits : Nat) (t : Time)
    (i j : Bool) :
    (s ≠ "" → (⟨.nullString s true, param, db, i⟩ : cursor).Make =
      (⟨.str s, param, db, j⟩ : cursor).Make) ∧
    (t.IsZero = false → (⟨.nullTime t true, param, db, i⟩ : cursor).Make =
      (⟨.time t, param, db, j⟩ : cursor).Make) ∧
    (⟨.nullInt32 n true, param, db, i⟩ : cursor).Make =
      (⟨.int32 n, param, db, j⟩ : cursor).Make ∧
    (⟨.nullInt64 n true, param, db, i⟩ : cursor).Make =
      (⟨.int64 n, param, db, j⟩ : cursor).Make ∧
    (⟨.nullFloat64 bits true, param, db, i⟩ : cursor).Make =
      (⟨.float64 bits, param, db, j⟩ : cursor).Make ∧
    (⟨.nullString s true, param, db, i⟩ : cursor).Make.2.2 = false ∧
    (⟨.nullTime t true, param, db, i⟩ : cursor).Make.2.2 = false := by
  refine ⟨?_, ?_, rfl, rfl, rfl, rfl, rfl⟩
  · intro hs
    have hfs : ¬ (⟨.str s, param, db, j⟩ : cursor).fieldString s = "" :=
      fieldString_ne_empty _ s hs
    simp [cursor.Make, cursor.makeClausePrimitiveType, cursor.makeClauseSqlNullType,
      cursor.makeClauseString, cursor.makeClauseNullString, cursor.makeClause,
      cursor.GetOperand, hfs]
  · intro ht
    simp [cursor.Make, cursor.makeClauseTimeType, cursor.makeClauseTime,
      cursor.makeClauseNullTime, cursor.makeClause, cursor.GetOperand, ht]

theorem valid_nullable_matches_plain_witness :
    "test" ≠ "" ∧ (⟨1, 0, "UTC"⟩ : Time).IsZero = false ∧
    (⟨.nullString "test" true, "nullstring", "nullstring", false⟩ : cursor).Make =
      (⟨.str "test", "nullstring", "nullstring", false⟩ : cursor).Make ∧
    (⟨.nullTime ⟨1, 0, "UTC"⟩ true, "nullstring", "nullstring", false⟩ : cursor).Make =
      (⟨.time ⟨1, 0, "UTC"⟩, "nullstring", "nullstring", false⟩ : cursor).Make :=
  ⟨by decide, by decide,
   (valid_nullable_matches_plain "nullstring" "nullstring" "test" 0 0 ⟨1, 0, "UTC"⟩
      false false).1
     (by decide),
   (valid_nullable_matches_plain "nullstring" "nullstring" "test" 0 0 ⟨1, 0, "UTC"⟩
      false false).2.1
     (by decide)⟩

theorem placeholderList_count (n : Nat) : countPlaceholders (placeholderList n) = n := by
  cases n with
  | zero => decide
  | succ k =>
    rw [placeholderList_succ]
    simp only [countPlaceholders, List.count_cons_self, extraPlaceholders_count]

theorem Make_empty_collection (c : cursor) (he : c.field.elems = some []) :
    c.Make = ("", [], true) := by
  rw [Make_elems c [] he]
  simp [sqlxIn]

/-- C9, as stated, fails. A collection field whose column tag contains `?` does
not yield `" AND <column> IN (?, ?)"`: the expansion finds a second `?` with no
argument left and reports an error, so the field is skipped. A collection of a
numeric type the type switch does not list, such as `[]int16`, is skipped
too. -/
theorem collection_with_placeholder_in_column_is_skipped :
    (⟨.strs ["x", "y"], "c", "a?b", false⟩ : cursor).Make = ("", [], true) ∧
    (⟨.strs ["x", "y"], "c", "a?b", false⟩ : cursor).Make ≠
        (" AND a?b IN (?, ?)", [.str "x", .str "y"], false) ∧
    (⟨.other "[]int16" "[1 2]", "c", "c", false⟩ : cursor).Make = ("", [], true) := by
  decide

/-- C9, amended. For a filter field of type `[]string`, `[]int`, `[]int32`,
`[]int64`, `[]float32` or `[]float64` holding `n > 0` elements, with a column
tag that contains no `?`, the conversion yields
`" AND <column> <op> (?, ?, ..., ?)"` with exactly `n` placeholders and the `n`
elements in their original order as arguments, where `<op>` is `NOT IN` if the
request-parameter name ends in `__nin` and `IN` for every other name. -/
theorem collection_field_conversion (c : cursor) (es : List Value)
    (he : c.field.elems = some es) (hne : es ≠ []) (hdb : '?' ∉ c.db.data) :
    c.Make = (" AND " ++ c.db ++ " " ++
                (if HasSuffix c.param "__nin" = true then "NOT IN" else "IN") ++ " (" ++
                placeholderList es.length ++ ")", es, false) ∧
    countPlaceholders (placeholderList es.length) = es.length := by
  refine ⟨?_, placeholderList_count _⟩
  have h := Make_collection c es he hne hdb
  simpa [cursor.GetOperandMulti] using h

theorem collection_field_conversion_witness :
    (⟨.strs ["ACTIVE", "USED"], "string__nin", "string", false⟩ : cursor).field.elems =
        some [.str "ACTIVE", .str "USED"] ∧
    '?' ∉ "string".data ∧
    (⟨.strs ["ACTIVE", "USED"], "string__nin", "string", false⟩ : cursor).Make =
        (" AND string NOT IN (?, ?)", [.str "ACTIVE", .str "USED"], false) ∧
    countPlaceholders (placeholderList 2) = 2 :=
  ⟨rfl, by decide,
   (collection_field_conversion ⟨.strs ["ACTIVE", "USED"], "string__nin", "string", false⟩
      [.str "ACTIVE", .str "USED"] rfl (by decide) (by decide)).1,
   (collection_field_conversion ⟨.strs ["ACTIVE", "USED"], "string__nin", "string", false⟩
      [.str "ACTIVE", .str "USED"] rfl (by decide) (by decide)).2⟩

/-- C10. A filter field holding an empty (or nil) collection is skipped by the
conversion and leaves the clause and the arguments accumulated by `Build` as
they were; a record in which every field either holds an empty collection or is
excluded by its tags builds, on the default builder, to
`" WHERE 1=1 LIMIT 0, 10"` with no arguments. -/
theorem empty_collection_contributes_nothing (c : cursor) (q : queryBuilder) (r : Record) :
    (c.field.elems = some [] →
      c.Make = ("", [], true) ∧
      (q.stepField c).whereClause = q.whereClause ∧ (q.stepField c).args = q.args) ∧
    ((∀ d ∈ r, d.field.elems = some [] ∨ d.excludedByTags = true) →
      (New []).Build (.pointer (.struct r)) =
        some (⟨" WHERE 1=1 LIMIT 0, 10", [], none⟩, New [])) := by
  constructor
  · intro he
    have hm := Make_empty_collection c he
    have hc : c.contributes = false := by simp [cursor.contributes, hm]
    refine ⟨hm, ?_, ?_⟩
    · rw [stepField_whereClause, hc]; exact str_append_empty _
    · rw [stepField_args, hc]; simp
  · intro h
    apply Build_default_of_inert
    intro d hd
    rcases h d hd with he | hx
    · have hm := Make_empty_collection d he
      rcases d with ⟨f, p, b, i⟩
      cases f <;> simp only [Value.elems, Option.some.injEq, reduceCtorEq] at he <;>
        apply stepField_skipped_value <;>
        simp_all [handleParamPage, handleParamLimit, handleParamShortBy, defaultPage,
          defaultLimit]
    · exact stepField_excluded _ d hx

theorem empty_collection_contributes_nothing_witness :
    (⟨.strs [], "strings", "strings", false⟩ : cursor).field.elems = some [] ∧
    (⟨.strs [], "strings", "strings", false⟩ : cursor).Make = ("", [], true) ∧
    (∀ d ∈ ([⟨.strs [], "strings", "strings", false⟩, ⟨.ints [], "ints", "ints", false⟩,
        ⟨.int32s [], "int32s", "int32s", false⟩, ⟨.int64s [], "int64s", "int64s", false⟩,
        ⟨.float32s [], "float32s", "float32s", false⟩, ⟨.float64s [], "float64s", "float64s", false⟩] :
        Record), d.field.elems = some [] ∨ d.excludedByTags = true) ∧
    (New []).Build (.pointer (.struct [⟨.strs [], "strings", "strings", false⟩,
        ⟨.ints [], "ints", "ints", false⟩, ⟨.int32s [], "int32s", "int32s", false⟩,
        ⟨.int64s [], "int64s", "int64s", false⟩, ⟨.float32s [], "float32s", "float32s", false⟩,
        ⟨.float64s [], "float64s", "float64s", false⟩])) =
      some (⟨" WHERE 1=1 LIMIT 0, 10", [], none⟩, New []) :=
  ⟨rfl,
   ((empty_collection_contributes_nothing ⟨.strs [], "strings", "strings", false⟩ (New []) []).1
      rfl).1,
   by decide,
   (empty_collection_contributes_nothing ⟨.strs [], "strings", "strings", false⟩ (New []) _).2
      (by decide)⟩

/-! ## Control settings read from the record -/

theorem stepField_page (q : queryBuilder) (c : cursor) :
    (q.stepField c).page = (c.pageUpdate).getD q.page := by
  unfold queryBuilder.stepField cursor.pageUpdate
  by_cases h1 : c.IsPage <;> by_cases h2 : c.IsLimit <;> by_cases h3 : c.IsSortBy <;>
    by_cases h4 : c.IsEmpty <;> by_cases h5 : c.Make.2.2 <;>
    simp [h1, h2, h3, h4, h5]

theorem stepField_limit (q : queryBuilder) (c : cursor) :
    (q.stepField c).limit = (c.limitUpdate).getD q.limit := by
  unfold queryBuilder.stepField cursor.limitUpdate
  by_cases h1 : c.IsPage <;> by_cases h2 : c.IsLimit <;> by_cases h3 : c.IsSortBy <;>
    by_cases h4 : c.IsEmpty <;> by_cases h5 : c.Make.2.2 <;>
    simp [h1, h2, h3, h4, h5]

theorem stepField_sortBy (q : queryBuilder) (c : cursor) :
    (q.stepField c).sortBy = (c.sortUpdate).getD q.sortBy := by
  unfold queryBuilder.stepField cursor.sortUpdate
  by_cases h1 : c.IsPage <;> by_cases h2 : c.IsLimit <;> by_cases h3 : c.IsSortBy <;>
    by_cases h4 : c.IsEmpty <;> by_cases h5 : c.Make.2.2 <;>
    simp [h1, h2, h3, h4, h5]

theorem scanFields_page (r : Record) (q : queryBuilder) :
    (q.scanFields r).page = lastUpdate cursor.pageUpdate q.page r := by
  induction r generalizing q with
  | nil => rfl
  | cons c rest ih =>
    have h := ih (q.stepField c)
    simp only [queryBuilder.scanFields, lastUpdate, List.foldl_cons] at h ⊢
    rw [h, stepField_page]

theorem scanFields_limit (r : Record) (q : queryBuilder) :
    (q.scanFields r).limit = lastUpdate cursor.limitUpdate q.limit r := by
  induction r generalizing q with
  | nil => rfl
  | cons c rest ih =>
    have h := ih (q.stepField c)
    simp only [queryBuilder.scanFields, lastUpdate, List.foldl_cons] at h ⊢
    rw [h, stepField_limit]

theorem scanFields_sortBy (r : Record) (q : queryBuilder) :
    (q.scanFields r).sortBy = lastUpdate cursor.sortUpdate q.sortBy r := by
  induction r generalizing q with
  | nil => rfl
  | cons c rest ih =>
    have h := ih (q.stepField c)
    simp only [queryBuilder.scanFields, lastUpdate, List.foldl_cons] at h ⊢
    rw [h, stepField_sortBy]

/-- Two starting values either lead to the same end value, or the record
assigns nothing and every starting value is kept. -/
theorem lastUpdate_same_or_kept {β : Type} (sel : cursor → Option β) (r : Record)
    (a b : β) :
    lastUpdate sel a r = lastUpdate sel b r ∨ ∀ x, lastUpdate sel x r = x := by
  induction r generalizing a b with
  | nil => right; intro x; rfl
  | cons c rest ih =>
    cases hs : sel c with
    | none =>
      rcases ih a b with h | h
      · left; simpa [lastUpdate, hs] using h
      · right; intro x; simpa [lastUpdate, hs] using h x
    | some v =>
      left; simp [lastUpdate, hs]

theorem lastUpdate_idem {β : Type} (sel : cursor → Option β) (r : Record) (a : β) :
    lastUpdate sel (lastUpdate sel a r) r = lastUpdate sel a r := by
  rcases lastUpdate_same_or_kept sel r (lastUpdate sel a r) a with h | h
  · exact h
  · exact h _

/-- C11. A timestamp filter field is skipped exactly when the timestamp is the
zero instant; otherwise it yields `" AND <column> <operand> ?"` with the
timestamp as the sole argument. -/
theorem time_field_conversion (t : Time) (param db : String) (iface : Bool) :
    ((⟨.time t, param, db, iface⟩ : cursor).Make.2.2 = true ↔ t.IsZero = true) ∧
    (t.IsZero = true → (⟨.time t, param, db, iface⟩ : cursor).Make = ("", [], true)) ∧
    (t.IsZero = false → (⟨.time t, param, db, iface⟩ : cursor).Make =
      (" AND " ++ db ++ " " ++ (⟨.time t, param, db, iface⟩ : cursor).GetOperand ++ " ?",
        [.time t], false)) := by
  refine ⟨?_, ?_, ?_⟩
  · cases ht : t.IsZero <;>
      simp [cursor.Make, cursor.makeClauseTimeType, cursor.makeClauseTime,
        cursor.makeClause, ht]
  · intro ht
    simp [cursor.Make, cursor.makeClauseTimeType, cursor.makeClauseTime, ht]
  · intro ht
    simp [cursor.Make, cursor.makeClauseTimeType, cursor.makeClauseTime,
      cursor.makeClause, whereClauseFmt, ht]

theorem time_field_conversion_witness :
    (⟨0, 0, "Local"⟩ : Time).IsZero = true ∧
    (⟨.time ⟨0, 0, "Local"⟩, "time", "time", false⟩ : cursor).Make = ("", [], true) ∧
    (⟨63791229600, 0, "Local"⟩ : Time).IsZero = false ∧
    (⟨.time ⟨63791229600, 0, "Local"⟩, "time__gte", "time", false⟩ : cursor).Make =
      (" AND time >= ?", [.time ⟨63791229600, 0, "Local"⟩], false) :=
  ⟨by decide,
   (time_field_conversion ⟨0, 0, "Local"⟩ "time" "time" false).2.1 (by decide),
   by decide,
   (time_field_conversion ⟨63791229600, 0, "Local"⟩ "time__gte" "time" false).2.2 (by decide)⟩

/-- C12. A field whose request-parameter tag is `page`, `limit`, `short_by`, `-`
or empty, or whose column tag is empty or `-`, adds nothing to the WHERE part
and nothing to the argument list, whatever value it holds; and the control
checks come first: a field tagged `page`, `limit` or `short_by` only sets that
control, whatever its column tag. -/
theorem non_filter_field_adds_nothing (q : queryBuilder) (c : cursor) :
    ((c.param = "page" ∨ c.param = "limit" ∨ c.param = "short_by" ∨ c.param = "-" ∨
        c.param = "" ∨ c.db = "" ∨ c.db = "-") →
      (q.stepField c).whereClause = q.whereClause ∧ (q.stepField c).args = q.args) ∧
    (c.param = "page" → q.stepField c = { q with page := handleParamPage c.field }) ∧
    (c.param = "limit" → q.stepField c = { q with limit := handleParamLimit c.field }) ∧
    (c.param = "short_by" →
      q.stepField c = { q with sortBy := handleParamShortBy c.field }) := by
  refine ⟨?_, ?_, ?_, ?_⟩
  · intro h
    have hc : c.contributes = false := by
      simp only [cursor.contributes, cursor.isFilter, cursor.IsPage, cursor.IsLimit,
        cursor.IsSortBy, cursor.IsEmpty]
      rcases h with h | h | h | h | h | h | h <;> simp [h]
    rw [stepField_whereClause, stepField_args, hc]
    exact ⟨str_append_empty _, by simp⟩
  · intro h
    simp [queryBuilder.stepField, cursor.IsPage, h]
  · intro h
    simp [queryBuilder.stepField, cursor.IsPage, cursor.IsLimit, h]
  · intro h
    simp [queryBuilder.stepField, cursor.IsPage, cursor.IsLimit, cursor.IsSortBy, h]

theorem non_filter_field_adds_nothing_witness :
    ((New []).stepField ⟨.str "test", "string", "-", false⟩).whereClause = (New []).whereClause ∧
    ((New []).stepField ⟨.str "test", "string", "-", false⟩).args = (New []).args ∧
    (New []).stepField ⟨.int64 3, "page", "page_col", false⟩ =
      { New [] with page := handleParamPage (.int64 3) } :=
  ⟨((non_filter_field_adds_nothing (New []) ⟨.str "test", "string", "-", false⟩).1
      (by decide)).1,
   ((non_filter_field_adds_nothing (New []) ⟨.str "test", "string", "-", false⟩).1
      (by decide)).2,
   (non_filter_field_adds_nothing (New []) ⟨.int64 3, "page", "page_col", false⟩).2.1 rfl⟩

theorem lastUpdate_pred {β : Type} (P : β → Prop) (sel : cursor → Option β) (r : Record)
    (init : β) (h0 : P init) (h : ∀ c v, sel c = some v → P v) :
    P (lastUpdate sel init r) := by
  induction r generalizing init with
  | nil => exact h0
  | cons c rest ih =>
    simp only [lastUpdate, List.foldl_cons]
    apply ih
    cases hs : sel c with
    | none => exact h0
    | some v => exact h c v hs

theorem handleParamPage_pos (f : Value) : 1 ≤ handleParamPage f := by
  unfold handleParamPage
  split
  · split_ifs with h
    · omega
    · decide
  · split_ifs with h
    · omega
    · decide
  · decide

theorem handleParamLimit_pos (f : Value) : 1 ≤ handleParamLimit f := by
  unfold handleParamLimit
  split
  · split_ifs with h
    · omega
    · decide
  · split_ifs with h
    · omega
    · decide
  · decide

theorem scanFields_page_pos (q : queryBuilder) (r : Record) (h : 1 ≤ q.page) :
    1 ≤ (q.scanFields r).page := by
  rw [scanFields_page]
  apply lastUpdate_pred (fun x => 1 ≤ x) _ _ _ h
  intro c v hv
  simp only [cursor.pageUpdate] at hv
  split_ifs at hv
  simp only [Option.some.injEq] at hv
  rw [← hv]; exact handleParamPage_pos _

theorem scanFields_limit_pos (q : queryBuilder) (r : Record) (h : 1 ≤ q.limit) :
    1 ≤ (q.scanFields r).limit := by
  rw [scanFields_limit]
  apply lastUpdate_pred (fun x => 1 ≤ x) _ _ _ h
  intro c v hv
  simp only [cursor.limitUpdate] at hv
  split_ifs at hv
  simp only [Option.some.injEq] at hv
  rw [← hv]; exact handleParamLimit_pos _

theorem wrapInt64_eq (x : Int) (h1 : -(2 ^ 63) ≤ x) (h2 : x < 2 ^ 63) : wrapInt64 x = x := by
  unfold wrapInt64
  rw [Int.emod_eq_of_lt (by omega) (by omega)]
  omega

/-- The limit part when no intermediate result leaves the range of `int64`. -/
theorem makeLimitClause_exact (q : queryBuilder) (hp : 1 ≤ q.page) (hl : 1 ≤ q.limit)
    (he : 0 ≤ q.extraLimit) (hb : q.page * q.limit + q.extraLimit < 2 ^ 63) :
    q.makeLimitClause =
      " LIMIT " ++ fmtInt ((q.page - 1) * q.limit) ++ ", " ++
        fmtInt ((q.page - 1) * q.limit + q.limit + q.extraLimit) := by
  have hpl : q.page * q.limit = (q.page - 1) * q.limit + q.limit := by ring
  have h0 : 0 ≤ (q.page - 1) * q.limit := Int.mul_nonneg (by omega) (by omega)
  have hle : q.page - 1 ≤ (q.page - 1) * q.limit := by
    have := Int.mul_le_mul_of_nonneg_left hl (show 0 ≤ q.page - 1 by omega)
    simpa using this
  have e1 : wrapInt64 (q.page - 1) = q.page - 1 := wrapInt64_eq _ (by omega) (by omega)
  have e2 : wrapInt64 ((q.page - 1) * q.limit) = (q.page - 1) * q.limit :=
    wrapInt64_eq _ (by omega) (by omega)
  have e3 : wrapInt64 ((q.page - 1) * q.limit + q.limit) = (q.page - 1) * q.limit + q.limit :=
    wrapInt64_eq _ (by omega) (by omega)
  have e4 : wrapInt64 ((q.page - 1) * q.limit + q.limit + q.extraLimit) =
      (q.page - 1) * q.limit + q.limit + q.extraLimit :=
    wrapInt64_eq _ (by omega) (by omega)
  unfold queryBuilder.makeLimitClause
  simp only [e1, e2, e3, e4]

theorem applyOptions_extraLimit (opts : List Option') (q0 : queryBuilder) :
    (opts.foldl (fun qb opt => opt.apply qb) q0).extraLimit =
      if Option'.WithExtraLimit ∈ opts then 1 else q0.extraLimit := by
  induction opts generalizing q0 with
  | nil => simp
  | cons o rest ih =>
    cases o
    rw [List.foldl_cons, ih]
    simp only [Option'.apply, List.mem_cons, true_or, if_true]
    split_ifs <;> rfl

theorem New_extraLimit (opts : List Option') :
    (New opts).extraLimit = if Option'.WithExtraLimit ∈ opts then 1 else 0 := by
  unfold New
  rw [applyOptions_extraLimit]

/-- C13, as stated, fails: `makeLimitClause` computes in `int64`, which wraps.
With page `2^62` and limit `4` the product `(p-1)*l` is `2^64 - 4`, and the
fragment ends with `" LIMIT -4, 0"`. -/
theorem limit_clause_wraps_around :
    ((New []).Build (.pointer (.struct
        [⟨.int64 4611686018427387904, "page", "", false⟩, ⟨.int64 4, "limit", "", false⟩]))).map
        (fun x => x.1.sqlClause) = some " WHERE 1=1 LIMIT -4, 0" ∧
    " LIMIT " ++ fmtInt ((4611686018427387904 - 1) * 4) ++ ", " ++
        fmtInt ((4611686018427387904 - 1) * 4 + 4 + 0) =
      " LIMIT 18446744073709551612, 18446744073709551616" := by
  decide

theorem wrapInt64_modEq (a : Int) : wrapInt64 a ≡ a [ZMOD 2 ^ 64] := by
  have h : (a + 2 ^ 63) % 2 ^ 64 ≡ a + 2 ^ 63 [ZMOD 2 ^ 64] := Int.mod_modEq _ _
  have h2 := h.sub_right (2 ^ 63)
  simpa [wrapInt64] using h2

theorem wrapInt64_congr (a b : Int) (h : a ≡ b [ZMOD 2 ^ 64]) : wrapInt64 a = wrapInt64 b := by
  have h2 : (a + 2 ^ 63) % 2 ^ 64 = (b + 2 ^ 63) % 2 ^ 64 := h.add_right (2 ^ 63)
  unfold wrapInt64
  rw [h2]

/-- The limit part in terms of the exact products and sums, reduced once to the
range of `int64`: wrapping after every operation, as the machine does, gives the
same two numbers. -/
theorem makeLimitClause_wrapped (q : queryBuilder) :
    q.makeLimitClause =
      " LIMIT " ++ fmtInt (wrapInt64 ((q.page - 1) * q.limit)) ++ ", " ++
        fmtInt (wrapInt64 ((q.page - 1) * q.limit + q.limit + q.extraLimit)) := by
  have e1 : wrapInt64 (wrapInt64 (q.page - 1) * q.limit) = wrapInt64 ((q.page - 1) * q.limit) :=
    wrapInt64_congr _ _ ((wrapInt64_modEq _).mul_right _)
  have e2 : wrapInt64 (wrapInt64 (wrapInt64 ((q.page - 1) * q.limit) + q.limit) +
      q.extraLimit) = wrapInt64 ((q.page - 1) * q.limit + q.limit + q.extraLimit) :=
    wrapInt64_congr _ _
      (((wrapInt64_modEq _).trans ((wrapInt64_modEq _).add_right _)).add_right _)
  unfold queryBuilder.makeLimitClause
  simp only [e1, e2]

/-- C13, amended. For every effective page `p` and limit `l`, the fragment ends
with `" LIMIT <o>, <u>"` where `o` is `(p-1)*l` and `u` is `(p-1)*l + l + e`,
both reduced to the range of `int64` by two's-complement wrap-around and written
in decimal, with `e = 1` when the builder was made with `WithExtraLimit` and
`e = 0` otherwise. Whenever `p * l + e` fits in `int64` nothing wraps:
`o = (p-1)*l` and `u = o + l + e` exactly. Page 2 / limit 100 gives
`LIMIT 100, 200`, page 1 / limit 100 gives `LIMIT 0, 100`, and with
`WithExtraLimit` page 1 / limit 10 gives `LIMIT 0, 11`. -/
theorem Build_limit_clause (opts : List Option') (r : Record) (p l : Int)
    (hp : ((New opts).scanFields r).page = p) (hl : ((New opts).scanFields r).limit = l)
    (hs : ∀ v ∈ sortEntries r, v ≠ "") :
    (∃ res q' pre, (New opts).Build (.pointer (.struct r)) = some (res, q') ∧
      res.sqlClause = pre ++
        (" LIMIT " ++ fmtInt (wrapInt64 ((p - 1) * l)) ++ ", " ++
          fmtInt (wrapInt64 ((p - 1) * l + l +
            (if Option'.WithExtraLimit ∈ opts then 1 else 0))))) ∧
    (p * l + (if Option'.WithExtraLimit ∈ opts then 1 else 0) < 2 ^ 63 →
      wrapInt64 ((p - 1) * l) = (p - 1) * l ∧
      wrapInt64 ((p - 1) * l + l + (if Option'.WithExtraLimit ∈ opts then 1 else 0)) =
        (p - 1) * l + l + (if Option'.WithExtraLimit ∈ opts then 1 else 0)) ∧
    ((New []).Build (.pointer (.struct
        [⟨.int64 2, "page", "", false⟩, ⟨.int64 100, "limit", "", false⟩]))).map
        (fun x => x.1.sqlClause) = some " WHERE 1=1 LIMIT 100, 200" ∧
    ((New []).Build (.pointer (.struct
        [⟨.int64 1, "page", "", false⟩, ⟨.int64 100, "limit", "", false⟩]))).map
        (fun x => x.1.sqlClause) = some " WHERE 1=1 LIMIT 0, 100" ∧
    ((New [.WithExtraLimit]).Build (.pointer (.struct
        [⟨.int64 1, "page", "", false⟩, ⟨.int64 10, "limit", "", false⟩]))).map
        (fun x => x.1.sqlClause) = some " WHERE 1=1 LIMIT 0, 11" := by
  have hN := New_fields opts
  have h1 : 1 ≤ p := by
    rw [← hp]; exact scanFields_page_pos _ r (by rw [hN.1])
  have h2 : 1 ≤ l := by
    rw [← hl]; exact scanFields_limit_pos _ r (by rw [hN.2.1]; decide)
  refine ⟨?_, ?_, by decide, by decide, by decide⟩
  · obtain ⟨q', ob, _, _, hqp, hql, hqe, hB⟩ := Build_fresh_shape opts r hs
    have he : q'.extraLimit = if Option'.WithExtraLimit ∈ opts then 1 else 0 := by
      rw [hqe, New_extraLimit]
    refine ⟨_, q', " WHERE 1=1" ++ fieldClauses r ++ ob, hB, ?_⟩
    show " WHERE 1=1" ++ fieldClauses r ++ ob ++ q'.makeLimitClause = _
    rw [makeLimitClause_wrapped q', he, hqp, hql, hp, hl]
  · intro hb
    have hpl : p * l = (p - 1) * l + l := by ring
    have h0 : 0 ≤ (p - 1) * l := Int.mul_nonneg (by omega) (by omega)
    have he0 : (0 : Int) ≤ (if Option'.WithExtraLimit ∈ opts then 1 else 0) := by
      split_ifs <;> decide
    exact ⟨wrapInt64_eq _ (by omega) (by omega), wrapInt64_eq _ (by omega) (by omega)⟩

theorem Build_limit_clause_witness :
    ((New [.WithExtraLimit]).scanFields
        [⟨.int64 3, "page", "", false⟩, ⟨.int 25, "limit", "", false⟩,
         ⟨.strs ["-id"], "short_by", "", false⟩]).page = 3 ∧
    (3 * 25 + (if Option'.WithExtraLimit ∈ [Option'.WithExtraLimit] then 1 else 0) <
        (2 : Int) ^ 63) ∧
    (∃ res q' pre, (New [.WithExtraLimit]).Build (.pointer (.struct
        [⟨.int64 3, "page", "", false⟩, ⟨.int 25, "limit", "", false⟩,
         ⟨.strs ["-id"], "short_by", "", false⟩])) = some (res, q') ∧
      res.sqlClause = pre ++
        (" LIMIT " ++ fmtInt (wrapInt64 ((3 - 1) * 25)) ++ ", " ++
          fmtInt (wrapInt64 ((3 - 1) * 25 + 25 +
            (if Option'.WithExtraLimit ∈ [Option'.WithExtraLimit] then 1 else 0))))) ∧
    wrapInt64 ((3 - 1) * 25) = (3 - 1) * 25 :=
  ⟨by decide, by decide,
   (Build_limit_clause [.WithExtraLimit]
      [⟨.int64 3, "page", "", false⟩, ⟨.int 25, "limit", "", false⟩,
       ⟨.strs ["-id"], "short_by", "", false⟩]
      3 25 (by decide) (by decide) (by decide)).1,
   ((Build_limit_clause [.WithExtraLimit]
      [⟨.int64 3, "page", "", false⟩, ⟨.int 25, "limit", "", false⟩,
       ⟨.strs ["-id"], "short_by", "", false⟩]
      3 25 (by decide) (by decide) (by decide)).2.1 (by decide)).1⟩

theorem lastUpdate_pred_mem {β : Type} (P : β → Prop) (sel : cursor → Option β)
    (r : Record) (init : β) (h0 : P init) (h : ∀ c ∈ r, ∀ v, sel c = some v → P v) :
    P (lastUpdate sel init r) := by
  induction r generalizing init with
  | nil => exact h0
  | cons c rest ih =>
    simp only [lastUpdate, List.foldl_cons]
    apply ih
    · cases hs : sel c with
      | none => exact h0
      | some v => exact h c (List.mem_cons_self _ _) v hs
    · exact fun e he w hw => h e (List.mem_cons_of_mem _ he) w hw

theorem lastUpdate_unique {β : Type} (sel : cursor → Option β) (r : Record) (init v : β)
    (c : cursor) (hc : c ∈ r) (hv : sel c = some v)
    (hu : ∀ d ∈ r, ∀ w, sel d = some w → w = v) : lastUpdate sel init r = v := by
  induction r generalizing init with
  | nil => cases hc
  | cons d rest ih =>
    have hur : ∀ e ∈ rest, ∀ w, sel e = some w → w = v :=
      fun e he w hw => hu e (List.mem_cons_of_mem _ he) w hw
    simp only [lastUpdate, List.foldl_cons]
    rcases List.mem_cons.mp hc with h | h
    · subst h
      rw [hv]
      exact lastUpdate_pred_mem (fun x => x = v) sel rest v rfl hur
    · exact ih _ h hur

/-- C14, as stated, fails for `int32`: `handleParamPage` and `handleParamLimit`
list `int64` and `int` only, so a positive `int32` page or limit is ignored and
the default is used. -/
theorem int32_page_and_limit_are_ignored :
    ((New []).scanFields [⟨.int32 5, "page", "", false⟩, ⟨.int32 20, "limit", "", false⟩]).page = 1 ∧
    ((New []).scanFields [⟨.int32 5, "page", "", false⟩, ⟨.int32 20, "limit", "", false⟩]).limit = 10 ∧
    ((New []).Build (.pointer (.struct
        [⟨.int32 5, "page", "", false⟩, ⟨.int32 20, "limit", "", false⟩]))).map
        (fun x => x.1.sqlClause) = some " WHERE 1=1 LIMIT 0, 10" := by
  decide

/-- C14, amended. For a record with one page-tagged field and one limit-tagged
field, the page `Build` uses is the value `v` of the page field when that field
is of type `int` or `int64` and `v > 0`, and the default 1 when the value is not
positive or the field has any other type, `int32` included; the same holds for
the limit field with default 10. -/
theorem page_and_limit_of_record (q : queryBuilder) (r : Record) (cp cl : cursor)
    (hcp : cp ∈ r) (hp : cp.param = "page") (hup : ∀ d ∈ r, d.param = "page" → d = cp)
    (hcl : cl ∈ r) (hl : cl.param = "limit") (hul : ∀ d ∈ r, d.param = "limit" → d = cl) :
    ((q.scanFields r).page = handleParamPage cp.field ∧
     (q.scanFields r).limit = handleParamLimit cl.field ∧
     ∀ res q', q.Build (.pointer (.struct r)) = some (res, q') →
       q'.page = handleParamPage cp.field ∧ q'.limit = handleParamLimit cl.field) ∧
    (∀ v : Int, handleParamPage (.int v) = (if v > 0 then v else 1) ∧
       handleParamPage (.int64 v) = (if v > 0 then v else 1) ∧
       handleParamLimit (.int v) = (if v > 0 then v else 10) ∧
       handleParamLimit (.int64 v) = (if v > 0 then v else 10)) ∧
    (∀ f : Value, (∀ v, f ≠ .int v) → (∀ v, f ≠ .int64 v) →
       handleParamPage f = 1 ∧ handleParamLimit f = 10) := by
  have h1 : (q.scanFields r).page = handleParamPage cp.field := by
    rw [scanFields_page]
    apply lastUpdate_unique cursor.pageUpdate r _ _ cp hcp
    · simp [cursor.pageUpdate, cursor.IsPage, hp]
    · intro d hd w hw
      simp only [cursor.pageUpdate, cursor.IsPage] at hw
      split_ifs at hw with hdp
      simp only [beq_iff_eq] at hdp
      rw [hup d hd hdp] at hw
      simp only [Option.some.injEq] at hw
      exact hw.symm
  have h2 : (q.scanFields r).limit = handleParamLimit cl.field := by
    rw [scanFields_limit]
    apply lastUpdate_unique cursor.limitUpdate r _ _ cl hcl
    · simp [cursor.limitUpdate, cursor.IsPage, cursor.IsLimit, hl]
    · intro d hd w hw
      simp only [cursor.limitUpdate, cursor.IsPage, cursor.IsLimit] at hw
      split_ifs at hw with hdp
      simp only [Bool.and_eq_true, beq_iff_eq] at hdp
      rw [hul d hd hdp.2] at hw
      simp only [Option.some.injEq] at hw
      exact hw.symm
  refine ⟨⟨h1, h2, ?_⟩, ?_, ?_⟩
  · intro res q' hB
    simp only [queryBuilder.Build] at hB
    split at hB
    · cases hB
    · simp only [Option.some.injEq, Prod.mk.injEq] at hB
      rw [← hB.2]
      exact ⟨h1, h2⟩
  · intro v
    simp [handleParamPage, handleParamLimit, defaultPage, defaultLimit]
  · intro f hf1 hf2
    cases f <;> simp_all [handleParamPage, handleParamLimit, defaultPage, defaultLimit]

theorem page_and_limit_of_record_witness :
    ((New []).scanFields [⟨.int 2, "page", "", false⟩, ⟨.int64 0, "limit", "", false⟩,
        ⟨.str "x", "name", "name", false⟩]).page = handleParamPage (.int 2) ∧
    ((New []).scanFields [⟨.int 2, "page", "", false⟩, ⟨.int64 0, "limit", "", false⟩,
        ⟨.str "x", "name", "name", false⟩]).limit = handleParamLimit (.int64 0) ∧
    handleParamPage (.int 2) = 2 ∧ handleParamLimit (.int64 0) = 10 :=
  ⟨(page_and_limit_of_record (New []) [⟨.int 2, "page", "", false⟩, ⟨.int64 0, "limit", "", false⟩,
        ⟨.str "x", "name", "name", false⟩] ⟨.int 2, "page", "", false⟩ ⟨.int64 0, "limit", "", false⟩
        (by decide) rfl (by decide) (by decide) rfl (by decide)).1.1,
   (page_and_limit_of_record (New []) [⟨.int 2, "page", "", false⟩, ⟨.int64 0, "limit", "", false⟩,
        ⟨.str "x", "name", "name", false⟩] ⟨.int 2, "page", "", false⟩ ⟨.int64 0, "limit", "", false⟩
        (by decide) rfl (by decide) (by decide) rfl (by decide)).1.2.1,
   by decide, by decide⟩

/-! ## Order-by rendering and custom clauses -/

theorem intercalate_go_append (a b s : String) (l : List String) :
    String.intercalate.go (a ++ b) s l = a ++ String.intercalate.go b s l := by
  induction l generalizing b with
  | nil => simp [String.intercalate.go]
  | cons x rest ih =>
    simp only [String.intercalate.go]
    rw [← ih, str_append_assoc a b s, str_append_assoc a (b ++ s) x]

theorem renderSortEntry_cons (v : String) (ch : Char) (tail : List Char)
    (hd : v.data = ch :: tail) :
    renderSortEntry v = if ch = '-' then String.mk tail ++ " DESC" else v ++ " ASC" := by
  unfold renderSortEntry
  rw [hd]
  by_cases hc : ch = '-'
  · subst hc; simp
  · simp only [hc, if_false]
    split
    · rename_i h; simp only [List.cons.injEq] at h; exact absurd h.1 hc
    · rfl

theorem orderByLoop_step (v : String) (rest : List String) (i : Nat) (acc : String)
    (hv : v ≠ "") :
    orderByLoop i (v :: rest) acc =
      orderByLoop (i + 1) rest ((if i > 0 then acc ++ ", " else acc) ++ renderSortEntry v) := by
  conv_lhs => unfold orderByLoop
  cases hd : v.data with
  | nil => exact absurd (String.ext hd) hv
  | cons ch tail =>
    rw [renderSortEntry_cons v ch tail hd]
    by_cases hc : ch = '-'
    · simp only [hc, if_true, str_append_assoc]
    · simp only [hc, if_false, str_append_assoc]

theorem orderByLoop_render (l : List String) (i : Nat) (acc : String)
    (h : ∀ v ∈ l, v ≠ "") :
    orderByLoop (i + 1) l acc =
      some (String.intercalate.go acc ", " (l.map renderSortEntry)) := by
  induction l generalizing i acc with
  | nil => rfl
  | cons v rest ih =>
    rw [orderByLoop_step v rest (i + 1) acc (h v (List.mem_cons_self _ _))]
    rw [ih (i + 1) _ (fun w hw => h w (List.mem_cons_of_mem _ hw))]
    simp only [Nat.succ_pos, gt_iff_lt, Nat.lt_add_left_iff_pos, Nat.zero_lt_succ, if_true,
      List.map_cons, String.intercalate.go]

/-- C15. For a sort list of non-empty strings the order-by part is empty when
the list is empty, and otherwise `" ORDER BY "` followed by the rendered
entries joined by `", "` in list order, where an entry beginning with `-`
renders as the rest of the entry followed by `" DESC"` and any other entry as
the entry followed by `" ASC"`. The list `["-created_at", "status"]` renders
`" ORDER BY created_at DESC, status ASC"`. -/
theorem makeOrderByClause_renders (q : queryBuilder) (h : ∀ v ∈ q.sortBy, v ≠ "") :
    q.makeOrderByClause =
      some (if q.sortBy = [] then ""
            else " ORDER BY " ++ String.intercalate ", " (q.sortBy.map renderSortEntry)) ∧
    ({ New [] with sortBy := ["-created_at", "status"] } : queryBuilder).makeOrderByClause =
      some " ORDER BY created_at DESC, status ASC" := by
  refine ⟨?_, by decide⟩
  unfold queryBuilder.makeOrderByClause
  cases hl : q.sortBy with
  | nil => simp
  | cons v rest =>
    rw [hl] at h
    simp only [List.length_cons, gt_iff_lt, Nat.zero_lt_succ, if_true, reduceCtorEq, if_false,
      List.map_cons, String.intercalate]
    rw [orderByLoop_step v rest 0 _ (h v (List.mem_cons_self _ _))]
    simp only [gt_iff_lt, Nat.lt_irrefl, if_false]
    rw [orderByLoop_render rest 0 _ (fun w hw => h w (List.mem_cons_of_mem _ hw))]
    rw [intercalate_go_append]

theorem makeOrderByClause_renders_witness :
    (∀ v ∈ ({ New [] with sortBy := ["status", "-id"] } : queryBuilder).sortBy, v ≠ "") ∧
    ({ New [] with sortBy := ["status", "-id"] } : queryBuilder).makeOrderByClause =
      some (if ({ New [] with sortBy := ["status", "-id"] } : queryBuilder).sortBy = [] then ""
            else " ORDER BY " ++ String.intercalate ", "
              (({ New [] with sortBy := ["status", "-id"] } : queryBuilder).sortBy.map
                renderSortEntry)) :=
  ⟨by decide,
   (makeOrderByClause_renders { New [] with sortBy := ["status", "-id"] } (by decide)).1⟩

theorem foldl_customWhere (l : List String) (w : String) :
    l.foldl (fun w wc => w ++ " AND " ++ wc) w = w ++ customClauses l := by
  induction l generalizing w with
  | nil => simp [customClauses, str_append_empty]
  | cons wc rest ih =>
    simp only [List.foldl_cons, customClauses]
    rw [ih, str_append_assoc, str_append_assoc, str_append_assoc]

/-- What `Build` returns on a pointer to a struct, whenever it returns: the
accumulated WHERE part, the clauses of the contributing fields, the custom
clauses, the order-by part and the limit part; and the accumulated arguments,
the field arguments and the custom arguments. -/
theorem Build_eq_some (q : queryBuilder) (r : Record) (res : BuildResult) (q' : queryBuilder)
    (h : q.Build (.pointer (.struct r)) = some (res, q')) :
    q' = (q.scanFields r).appendCustomWhere ∧
    ∃ ob, q'.makeOrderByClause = some ob ∧
      res = ⟨q.whereClause ++ fieldClauses r ++ customClauses q.customWhereClause ++ ob ++
              q'.makeLimitClause,
             q.args ++ fieldArgs r ++ q.customWhereClauseArgs, none⟩ := by
  simp only [queryBuilder.Build] at h
  split at h
  · cases h
  · rename_i ob hob
    simp only [Option.some.injEq, Prod.mk.injEq] at h
    obtain ⟨h1, h2⟩ := h
    refine ⟨h2.symm, ob, by rw [← h2]; exact hob, ?_⟩
    obtain ⟨sc1, sc2, _⟩ := scanFields_custom r q
    rw [← h1, ← h2]
    simp only [queryBuilder.appendCustomWhere, sc1, sc2, foldl_customWhere,
      scanFields_whereClause, scanFields_args]

/-- The call returns as soon as the sort list left by the field loop holds no
empty string. -/
theorem Build_returns (q : queryBuilder) (r : Record)
    (h : ∀ v ∈ (q.scanFields r).sortBy, v ≠ "") :
    ∃ res q', q.Build (.pointer (.struct r)) = some (res, q') := by
  obtain ⟨ob, hob⟩ := makeOrderByClause_some (q.scanFields r).appendCustomWhere h
  exact ⟨_, _, Build_struct q r ob hob⟩

theorem addWhereClauses_fields (adds : List (String × List Value)) (q : queryBuilder) :
    (addWhereClauses q adds).customWhereClause = q.customWhereClause ++ adds.map Prod.fst ∧
    (addWhereClauses q adds).customWhereClauseArgs =
      q.customWhereClauseArgs ++ (adds.map Prod.snd).flatten ∧
    (addWhereClauses q adds).whereClause = q.whereClause ∧
    (addWhereClauses q adds).args = q.args ∧
    (addWhereClauses q adds).sortBy = q.sortBy ∧
    (addWhereClauses q adds).page = q.page ∧
    (addWhereClauses q adds).limit = q.limit ∧
    (addWhereClauses q adds).extraLimit = q.extraLimit := by
  induction adds generalizing q with
  | nil => simp [addWhereClauses]
  | cons a rest ih =>
    have h := ih (q.AddWhereClause a.1 a.2)
    simp only [addWhereClauses, List.foldl_cons] at h ⊢
    obtain ⟨h1, h2, h3, h4, h5, h6, h7, h8⟩ := h
    rw [h1, h2, h3, h4, h5, h6, h7, h8]
    simp [queryBuilder.AddWhereClause]

/-- C16. After any sequence of `AddWhereClause` calls on a fresh builder, the
fragment `Build` returns is the base predicate, then every field-derived
clause, then each custom fragment prefixed by `" AND "` in the order added,
then the order-by and limit parts; the argument list is every field-derived
argument followed by the custom arguments in the order added. `Build` returns
such a result for every record whose sort entries are non-empty. -/
theorem custom_clauses_follow_field_clauses (opts : List Option')
    (adds : List (String × List Value)) (r : Record) :
    (∀ res q', (addWhereClauses (New opts) adds).Build (.pointer (.struct r)) =
        some (res, q') →
      ∃ ob, q'.makeOrderByClause = some ob ∧
        res.sqlClause = " WHERE 1=1" ++ fieldClauses r ++ customClauses (adds.map Prod.fst) ++
          ob ++ q'.makeLimitClause ∧
        res.args = fieldArgs r ++ (adds.map Prod.snd).flatten ∧ res.err = none) ∧
    ((∀ v ∈ sortEntries r, v ≠ "") →
      ∃ res q', (addWhereClauses (New opts) adds).Build (.pointer (.struct r)) =
        some (res, q')) := by
  obtain ⟨_, _, hsb, hc, hca, ha, hw, _⟩ := New_fields opts
  obtain ⟨a1, a2, a3, a4, a5, _, _, _⟩ := addWhereClauses_fields adds (New opts)
  constructor
  · intro res q' hB
    obtain ⟨_, ob, hob, hres⟩ := Build_eq_some _ r res q' hB
    refine ⟨ob, hob, ?_, ?_, ?_⟩
    · rw [hres]; simp only [a1, a3, hc, hw, List.nil_append]
    · rw [hres]; simp only [a2, a4, hca, ha, List.nil_append]
    · rw [hres]
  · intro hs
    apply Build_returns
    intro v hv
    rcases scanFields_sortBy_mem r _ v hv with h | h
    · rw [a5, hsb] at h; cases h
    · exact hs v h

theorem custom_clauses_follow_field_clauses_witness :
    (∀ v ∈ sortEntries [⟨.nullString "hoho" true, "nullstring", "nullstring", false⟩], v ≠ "") ∧
    ∃ res q', (addWhereClauses (New [])
        [("(foo = ? OR bar == ?)", [.str "bar", .str "foo"]), ("ping = ?", [.str "pong"])]).Build
        (.pointer (.struct [⟨.nullString "hoho" true, "nullstring", "nullstring", false⟩])) =
      some (res, q') :=
  ⟨by decide,
   (custom_clauses_follow_field_clauses []
      [("(foo = ? OR bar == ?)", [.str "bar", .str "foo"]), ("ping = ?", [.str "pong"])]
      [⟨.nullString "hoho" true, "nullstring", "nullstring", false⟩]).2 (by decide)⟩

/-- C17. `ValidatePageAndLimit` replaces a zero page by 1 and a zero limit by
10, returns every non-zero input, negative ones included, unchanged, and treats
the two components independently of each other. -/
theorem ValidatePageAndLimit_spec (p l : Int) :
    ValidatePageAndLimit p l = (if p = 0 then 1 else p, if l = 0 then 10 else l) ∧
    (p = 0 → (ValidatePageAndLimit p l).1 = 1) ∧
    (p ≠ 0 → (ValidatePageAndLimit p l).1 = p) ∧
    (l = 0 → (ValidatePageAndLimit p l).2 = 10) ∧
    (l ≠ 0 → (ValidatePageAndLimit p l).2 = l) ∧
    (∀ l', (ValidatePageAndLimit p l').1 = (ValidatePageAndLimit p l).1) ∧
    (∀ p', (ValidatePageAndLimit p' l).2 = (ValidatePageAndLimit p l).2) := by
  refine ⟨rfl, ?_, ?_, ?_, ?_, fun _ => rfl, fun _ => rfl⟩
  · intro h; simp [ValidatePageAndLimit, h]
  · intro h; simp [ValidatePageAndLimit, h]
  · intro h; simp [ValidatePageAndLimit, h]
  · intro h; simp [ValidatePageAndLimit, h]

theorem ValidatePageAndLimit_spec_witness :
    (0 : Int) = 0 ∧ (-3 : Int) ≠ 0 ∧
    (ValidatePageAndLimit 0 (-3)).1 = 1 ∧ (ValidatePageAndLimit 0 (-3)).2 = -3 :=
  ⟨rfl, by decide, (ValidatePageAndLimit_spec 0 (-3)).2.1 rfl,
   (ValidatePageAndLimit_spec 0 (-3)).2.2.2.2.1 (by decide)⟩

theorem stepField_skipped_filter (q : queryBuilder) (c : cursor) (hf : c.isFilter = true)
    (hm : c.Make.2.2 = true) : q.stepField c = q := by
  simp only [cursor.isFilter, Bool.and_eq_true, Bool.not_eq_true'] at hf
  obtain ⟨⟨⟨h1, h2⟩, h3⟩, h4⟩ := hf
  simp [queryBuilder.stepField, h1, h2, h3, h4, hm]

theorem scanFields_append (q : queryBuilder) (r1 r2 : Record) :
    q.scanFields (r1 ++ r2) = (q.scanFields r1).scanFields r2 := by
  simp only [queryBuilder.scanFields, List.foldl_append]

theorem Build_congr (q : queryBuilder) (r r' : Record)
    (h : q.scanFields r = q.scanFields r') :
    q.Build (.pointer (.struct r)) = q.Build (.pointer (.struct r')) := by
  simp only [queryBuilder.Build, h]

/-- C18. A filter field whose runtime type is none of the supported ones is
reported as skipped, with an empty clause and no arguments, and `Build` gives
for the record holding it exactly what it gives for the same record without it:
the same fragment, the same arguments and the same nil error, which it returns
whenever the sort list read from the record holds no empty string. -/
theorem unsupported_field_is_skipped (q : queryBuilder) (r1 r2 : Record) (c : cursor)
    (hf : c.isFilter = true) (h1 : c.field.scalarArg = none) (h2 : c.field.elems = none) :
    c.Make = ("", [], true) ∧
    q.Build (.pointer (.struct (r1 ++ c :: r2))) = q.Build (.pointer (.struct (r1 ++ r2))) ∧
    (∀ res q', q.Build (.pointer (.struct (r1 ++ c :: r2))) = some (res, q') →
      res.err = none) ∧
    ((∀ v ∈ (q.scanFields (r1 ++ r2)).sortBy, v ≠ "") →
      ∃ res q', q.Build (.pointer (.struct (r1 ++ c :: r2))) = some (res, q') ∧
        res.err = none) := by
  have hm := Make_unsupported c h1 h2
  have hskip : c.Make.2.2 = true := by rw [hm]
  have hscan : q.scanFields (r1 ++ c :: r2) = q.scanFields (r1 ++ r2) := by
    rw [scanFields_append, scanFields_append]
    show ((q.scanFields r1).stepField c).scanFields r2 = _
    rw [stepField_skipped_filter _ c hf hskip]
  have herr : ∀ res q', q.Build (.pointer (.struct (r1 ++ c :: r2))) = some (res, q') →
      res.err = none := by
    intro res q' hB
    obtain ⟨_, ob, _, hres⟩ := Build_eq_some q _ res q' hB
    rw [hres]
  refine ⟨hm, Build_congr q _ _ hscan, herr, ?_⟩
  intro hs
  rw [← hscan] at hs
  obtain ⟨res, q', hB⟩ := Build_returns q _ hs
  exact ⟨res, q', hB, herr res q' hB⟩

theorem unsupported_field_is_skipped_witness :
    (⟨.bool true, "active", "active", false⟩ : cursor).isFilter = true ∧
    (⟨.bool true, "active", "active", false⟩ : cursor).Make = ("", [], true) ∧
    (New []).Build (.pointer (.struct ([⟨.str "test", "string", "string", false⟩] ++
        ⟨.bool true, "active", "active", false⟩ :: [⟨.int 10, "int", "int", false⟩]))) =
      (New []).Build (.pointer (.struct ([⟨.str "test", "string", "string", false⟩] ++
        [⟨.int 10, "int", "int", false⟩]))) :=
  ⟨by decide,
   (unsupported_field_is_skipped (New []) [⟨.str "test", "string", "string", false⟩]
      [⟨.int 10, "int", "int", false⟩] ⟨.bool true, "active", "active", false⟩ (by decide) rfl rfl).1,
   (unsupported_field_is_skipped (New []) [⟨.str "test", "string", "string", false⟩]
      [⟨.int 10, "int", "int", false⟩] ⟨.bool true, "active", "active", false⟩ (by decide) rfl rfl).2.1⟩

/-- C19. The claim fails at a record whose sort list contains an empty string:
`Build` panics in `makeOrderByClause`, whatever else the record holds and
whatever the options, where the same record without the empty entry builds. -/
theorem Build_aborts_on_empty_sort_entry :
    (New [.WithExtraLimit]).Build (.pointer (.struct
        [⟨.str "test", "string", "string", false⟩, ⟨.int64 2, "page", "", false⟩,
         ⟨.strs ["status", ""], "short_by", "", false⟩])) = none ∧
    ((New [.WithExtraLimit]).Build (.pointer (.struct
        [⟨.str "test", "string", "string", false⟩, ⟨.int64 2, "page", "", false⟩,
         ⟨.strs ["status"], "short_by", "", false⟩]))).map (fun x => x.1) =
      some ⟨" WHERE 1=1 AND string LIKE ? ORDER BY status ASC LIMIT 10, 21",
            [.str "test"], none⟩ := by
  decide

theorem makeOrderByClause_congr (q q' : queryBuilder) (h : q'.sortBy = q.sortBy) :
    q'.makeOrderByClause = q.makeOrderByClause := by
  simp only [queryBuilder.makeOrderByClause, h]

theorem makeLimitClause_congr (q q' : queryBuilder) (hp : q'.page = q.page)
    (hl : q'.limit = q.limit) (he : q'.extraLimit = q.extraLimit) :
    q'.makeLimitClause = q.makeLimitClause := by
  simp only [queryBuilder.makeLimitClause, hp, hl, he]

/-- C20, as stated, fails: the WHERE part and the arguments stay in the builder.
A second `Build` with the same record repeats the field clause and its
argument. -/
theorem second_Build_repeats_clauses :
    ((New []).Build (.pointer (.struct [⟨.int 1, "a", "a", false⟩]))).bind
        (fun x => (x.2.Build (.pointer (.struct [⟨.int 1, "a", "a", false⟩]))).map
          (fun y => (x.1.sqlClause, x.1.args, y.1.sqlClause, y.1.args))) =
      some (" WHERE 1=1 AND a = ? LIMIT 0, 10", [.int 1],
            " WHERE 1=1 AND a = ? AND a = ? LIMIT 0, 10", [.int 1, .int 1]) := by
  decide

/-- C20, amended. When `Build` has returned once, a second `Build` on the same
builder with the same record returns too, with the same order-by and limit
parts; its WHERE part is the whole WHERE part of the first call followed once
more by the field clauses and the custom clauses, and its arguments are those of
the first call followed once more by the field arguments and the custom
arguments. The two results are equal when the record contributes no clause and
the builder holds no custom clause. -/
theorem Build_twice (q : queryBuilder) (r : Record) (res1 : BuildResult) (q1 : queryBuilder)
    (h1 : q.Build (.pointer (.struct r)) = some (res1, q1)) :
    ∃ res2 q2 ob, q1.Build (.pointer (.struct r)) = some (res2, q2) ∧
      q1.makeOrderByClause = some ob ∧
      res1.sqlClause = q1.whereClause ++ ob ++ q1.makeLimitClause ∧
      res1.args = q1.args ∧
      res2.sqlClause = q1.whereClause ++ fieldClauses r ++
        customClauses q.customWhereClause ++ ob ++ q1.makeLimitClause ∧
      res2.args = q1.args ++ fieldArgs r ++ q.customWhereClauseArgs ∧
      (fieldClauses r = "" → fieldArgs r = [] → q.customWhereClause = [] →
        q.customWhereClauseArgs = [] →
        res2.sqlClause = res1.sqlClause ∧ res2.args = res1.args) := by
  obtain ⟨hq1, ob, hob, hres1⟩ := Build_eq_some q r res1 q1 h1
  obtain ⟨sc1, sc2, sc3⟩ := scanFields_custom r q
  have hw1 : q1.whereClause =
      q.whereClause ++ fieldClauses r ++ customClauses q.customWhereClause := by
    rw [hq1]
    simp only [queryBuilder.appendCustomWhere, sc1, foldl_customWhere, scanFields_whereClause]
  have ha1 : q1.args = q.args ++ fieldArgs r ++ q.customWhereClauseArgs := by
    rw [hq1]
    simp only [queryBuilder.appendCustomWhere, sc2, scanFields_args]
  have hc1 : q1.customWhereClause = q.customWhereClause := by rw [hq1]; exact sc1
  have hca1 : q1.customWhereClauseArgs = q.customWhereClauseArgs := by rw [hq1]; exact sc2
  have hs1 : q1.sortBy = lastUpdate cursor.sortUpdate q.sortBy r := by
    rw [hq1]; exact scanFields_sortBy r q
  have hp1 : q1.page = lastUpdate cursor.pageUpdate q.page r := by
    rw [hq1]; exact scanFields_page r q
  have hl1 : q1.limit = lastUpdate cursor.limitUpdate q.limit r := by
    rw [hq1]; exact scanFields_limit r q
  have hs2 : ((q1.scanFields r).appendCustomWhere).sortBy = q1.sortBy := by
    show (q1.scanFields r).sortBy = _
    rw [scanFields_sortBy, hs1, lastUpdate_idem]
  have hp2 : ((q1.scanFields r).appendCustomWhere).page = q1.page := by
    show (q1.scanFields r).page = _
    rw [scanFields_page, hp1, lastUpdate_idem]
  have hl2 : ((q1.scanFields r).appendCustomWhere).limit = q1.limit := by
    show (q1.scanFields r).limit = _
    rw [scanFields_limit, hl1, lastUpdate_idem]
  have he2 : ((q1.scanFields r).appendCustomWhere).extraLimit = q1.extraLimit :=
    (scanFields_custom r q1).2.2
  have hob2 : ((q1.scanFields r).appendCustomWhere).makeOrderByClause = some ob := by
    rw [makeOrderByClause_congr q1 _ hs2]; exact hob
  have hB2 := Build_struct q1 r ob hob2
  obtain ⟨_, ob', hob', hres2⟩ := Build_eq_some q1 r _ _ hB2
  have hobeq : ob' = ob := by
    rw [hob2] at hob'; exact (Option.some.inj hob').symm
  have hlim := makeLimitClause_congr q1 _ hp2 hl2 he2
  have e1 : res1.sqlClause = q1.whereClause ++ ob ++ q1.makeLimitClause := by
    rw [hres1, hw1]
  have e2 : res1.args = q1.args := by rw [hres1, ha1]
  refine ⟨_, _, ob, hB2, hob, e1, e2, ?_, ?_, ?_⟩
  · rw [hres2, hobeq, hlim, hc1]
  · rw [hres2, hca1]
  · intro f1 f2 f3 f4
    constructor
    · rw [hres2, hobeq, hlim, hc1, e1, f1, f3]
      simp only [customClauses, str_append_empty]
    · rw [hres2, hca1, e2, f2, f4]
      simp

theorem Build_twice_witness :
    (New []).Build (.pointer (.struct [⟨.int64 2, "page", "", false⟩, ⟨.str "", "name", "name", false⟩])) =
      some (⟨" WHERE 1=1 LIMIT 10, 20", [], none⟩,
            ((New []).scanFields [⟨.int64 2, "page", "", false⟩,
              ⟨.str "", "name", "name", false⟩]).appendCustomWhere) ∧
    ∃ res2 q2 ob,
      (((New []).scanFields [⟨.int64 2, "page", "", false⟩,
          ⟨.str "", "name", "name", false⟩]).appendCustomWhere).Build
          (.pointer (.struct [⟨.int64 2, "page", "", false⟩, ⟨.str "", "name", "name", false⟩])) =
        some (res2, q2) ∧
      (((New []).scanFields [⟨.int64 2, "page", "", false⟩,
          ⟨.str "", "name", "name", false⟩]).appendCustomWhere).makeOrderByClause = some ob ∧
      res2.sqlClause = " WHERE 1=1 LIMIT 10, 20" ∧ res2.args = [] := by
  have h1 : (New []).Build (.pointer (.struct
      [⟨.int64 2, "page", "", false⟩, ⟨.str "", "name", "name", false⟩])) =
      some (⟨" WHERE 1=1 LIMIT 10, 20", [], none⟩,
            ((New []).scanFields [⟨.int64 2, "page", "", false⟩,
              ⟨.str "", "name", "name", false⟩]).appendCustomWhere) := by decide
  obtain ⟨res2, q2, ob, hB, hob, _, _, _, _, hsame⟩ := Build_twice _ _ _ _ h1
  obtain ⟨s1, s2⟩ := hsame (by decide) (by decide) (by decide) (by decide)
  exact ⟨h1, res2, q2, ob, hB, hob, s1, s2⟩

/-! ## Invariants of the builder and of the placeholders -/

theorem appendCustomWhere_controls (q : queryBuilder) :
    q.appendCustomWhere.page = q.page ∧ q.appendCustomWhere.limit = q.limit ∧
    q.appendCustomWhere.sortBy = q.sortBy ∧ q.appendCustomWhere.extraLimit = q.extraLimit :=
  ⟨rfl, rfl, rfl, rfl⟩

/-- C21. For a builder made by `New` with any options and every record, the
field loop of `Build` leaves a page of at least 1 and a limit of at least 1,
whatever the page-tagged and limit-tagged fields hold (zero, a negative number,
a value of another type, several such fields); so does every call of `Build`
that returns, on any argument, and `Build` returns on the record whenever its
sort entries are non-empty. -/
theorem page_and_limit_stay_positive (opts : List Option') (r : Record) :
    (1 ≤ ((New opts).scanFields r).page ∧ 1 ≤ ((New opts).scanFields r).limit) ∧
    (∀ p res q', (New opts).Build p = some (res, q') → 1 ≤ q'.page ∧ 1 ≤ q'.limit) ∧
    ((∀ v ∈ sortEntries r, v ≠ "") →
      ∃ res q', (New opts).Build (.pointer (.struct r)) = some (res, q') ∧
        1 ≤ q'.page ∧ 1 ≤ q'.limit) := by
  obtain ⟨hp, hl, hsb, _⟩ := New_fields opts
  have hp1 : (1 : Int) ≤ (New opts).page := by rw [hp]
  have hl1 : (1 : Int) ≤ (New opts).limit := by rw [hl]; decide
  have hscan : ∀ r' : Record,
      1 ≤ ((New opts).scanFields r').page ∧ 1 ≤ ((New opts).scanFields r').limit :=
    fun r' => ⟨scanFields_page_pos _ r' hp1, scanFields_limit_pos _ r' hl1⟩
  have hall : ∀ p res q', (New opts).Build p = some (res, q') →
      1 ≤ q'.page ∧ 1 ≤ q'.limit := by
    intro p res q' hB
    cases p with
    | untypedNil =>
      simp only [queryBuilder.Build, Option.some.injEq, Prod.mk.injEq] at hB
      rw [← hB.2]; exact ⟨hp1, hl1⟩
    | nonPointer v =>
      simp only [queryBuilder.Build, Option.some.injEq, Prod.mk.injEq] at hB
      rw [← hB.2]; exact ⟨hp1, hl1⟩
    | nilPointer =>
      simp only [queryBuilder.Build, Option.some.injEq, Prod.mk.injEq] at hB
      rw [← hB.2]; exact ⟨hp1, hl1⟩
    | pointer v =>
      cases v with
      | nonStruct x => simp [queryBuilder.Build] at hB
      | struct r' =>
        obtain ⟨hq', _⟩ := Build_eq_some _ r' res q' hB
        rw [hq']
        exact hscan r'
  refine ⟨hscan r, hall, ?_⟩
  intro hs
  have hne : ∀ v ∈ ((New opts).scanFields r).sortBy, v ≠ "" := by
    intro v hv
    rcases scanFields_sortBy_mem r _ v hv with h | h
    · rw [hsb] at h; cases h
    · exact hs v h
  obtain ⟨res, q', hB⟩ := Build_returns _ r hne
  exact ⟨res, q', hB, hall _ res q' hB⟩

theorem page_and_limit_stay_positive_witness :
    (∀ v ∈ sortEntries [⟨.int64 0, "page", "", false⟩, ⟨.int (-3), "page", "", false⟩,
        ⟨.str "x", "limit", "", false⟩, ⟨.int64 (-1), "limit", "", false⟩], v ≠ "") ∧
    ∃ res q', (New [.WithExtraLimit]).Build (.pointer (.struct
        [⟨.int64 0, "page", "", false⟩, ⟨.int (-3), "page", "", false⟩,
         ⟨.str "x", "limit", "", false⟩, ⟨.int64 (-1), "limit", "", false⟩])) = some (res, q') ∧
      1 ≤ q'.page ∧ 1 ≤ q'.limit :=
  ⟨by decide,
   (page_and_limit_stay_positive [.WithExtraLimit]
      [⟨.int64 0, "page", "", false⟩, ⟨.int (-3), "page", "", false⟩,
       ⟨.str "x", "limit", "", false⟩, ⟨.int64 (-1), "limit", "", false⟩]).2.2 (by decide)⟩

theorem concatStrings_append (a b : List String) :
    concatStrings (a ++ b) = concatStrings a ++ concatStrings b := by
  induction a with
  | nil => simp [concatStrings, str_empty_append]
  | cons s rest ih =>
    rw [List.cons_append, concatStrings, concatStrings, ih, str_append_assoc]

theorem fieldClauses_eq_concat (r : Record) :
    fieldClauses r = concatStrings ((r.filter cursor.contributes).map (fun c => c.Make.1)) := by
  induction r with
  | nil => rfl
  | cons c rest ih =>
    by_cases hc : c.contributes = true
    · simp only [fieldClauses, hc, if_true, List.filter_cons_of_pos, List.map_cons,
        concatStrings, ih]
    · simp only [fieldClauses, hc, if_false, Bool.false_eq_true, List.filter_cons_of_neg,
        not_false_eq_true, ih, str_empty_append]

theorem fieldArgs_eq_flatten (r : Record) :
    fieldArgs r = ((r.filter cursor.contributes).map (fun c => c.Make.2.1)).flatten := by
  induction r with
  | nil => rfl
  | cons c rest ih =>
    by_cases hc : c.contributes = true
    · simp only [fieldArgs, hc, if_true, List.filter_cons_of_pos, List.map_cons,
        List.flatten_cons, ih]
    · simp only [fieldArgs, hc, if_false, Bool.false_eq_true, List.filter_cons_of_neg,
        not_false_eq_true, ih, List.nil_append]

theorem customClauses_eq_concat (l : List String) :
    customClauses l = concatStrings (l.map (fun wc => " AND " ++ wc)) := by
  induction l with
  | nil => rfl
  | cons wc rest ih =>
    simp only [customClauses, List.map_cons, concatStrings, ih, str_append_assoc]

theorem countPlaceholders_eq_filter (s : String) :
    countPlaceholders s = (s.data.filter (· == '?')).length := by
  unfold countPlaceholders
  rw [List.count, List.countP_eq_length_filter]

theorem owners_agree (segs : List (String × List Value)) (j : Nat)
    (h : ∀ p ∈ segs, countPlaceholders p.1 = p.2.length) :
    placeholderOwners j (segs.map Prod.fst) = argumentOwners j (segs.map Prod.snd) := by
  induction segs generalizing j with
  | nil => rfl
  | cons p rest ih =>
    have hp := h p (List.mem_cons_self _ _)
    rw [countPlaceholders_eq_filter] at hp
    simp only [List.map_cons, placeholderOwners, argumentOwners]
    rw [ih (j + 1) (fun x hx => h x (List.mem_cons_of_mem _ hx))]
    congr 1
    rw [List.map_const', List.map_const', hp]

theorem clauseContributions_parity (r : Record) (adds : List (String × List Value))
    (hdb : ∀ c ∈ r, '?' ∉ c.db.data)
    (hadds : ∀ a ∈ adds, countPlaceholders a.1 = a.2.length) :
    ∀ p ∈ clauseContributions r adds, countPlaceholders p.1 = p.2.length := by
  intro p hp
  simp only [clauseContributions, List.mem_append, List.mem_map, List.mem_filter] at hp
  rcases hp with ⟨c, ⟨hc, hcon⟩, rfl⟩ | ⟨a, ha, rfl⟩
  · have hns : c.Make.2.2 = false := by
      simp only [cursor.contributes, Bool.and_eq_true, Bool.not_eq_true'] at hcon
      exact hcon.2
    exact Make_parity c (hdb c hc) hns
  · have h0 : countPlaceholders " AND " = 0 := by decide
    simp only [countPlaceholders_append, h0, Nat.zero_add]
    exact hadds a ha

theorem clauseContributions_fst (r : Record) (adds : List (String × List Value)) :
    concatStrings ((clauseContributions r adds).map Prod.fst) =
      fieldClauses r ++ customClauses (adds.map Prod.fst) := by
  simp only [clauseContributions, List.map_append, List.map_map, concatStrings_append,
    fieldClauses_eq_concat, customClauses_eq_concat]
  rfl

theorem clauseContributions_snd (r : Record) (adds : List (String × List Value)) :
    ((clauseContributions r adds).map Prod.snd).flatten =
      fieldArgs r ++ (adds.map Prod.snd).flatten := by
  simp only [clauseContributions, List.map_append, List.map_map, List.flatten_append,
    fieldArgs_eq_flatten]
  rfl

theorem concat_parity (segs : List (String × List Value))
    (h : ∀ p ∈ segs, countPlaceholders p.1 = p.2.length) :
    countPlaceholders (concatStrings (segs.map Prod.fst)) =
      ((segs.map Prod.snd).flatten).length := by
  induction segs with
  | nil => decide
  | cons p rest ih =>
    simp only [List.map_cons, concatStrings, countPlaceholders_append, List.flatten_cons,
      List.length_append]
    rw [h p (List.mem_cons_self _ _), ih (fun x hx => h x (List.mem_cons_of_mem _ hx))]

/-- C22. Take a fresh builder, any sequence of `AddWhereClause` calls in which
each fragment contains exactly as many `?` as arguments come with it, and a
record in which no column tag and no sort entry contains `?`. Then every
fragment `Build` returns is the base predicate, the clauses of the contributing
fields and the custom fragments in order, and a tail (order-by and limit)
without `?`; the argument list is the arguments of those same clauses in the
same order; each clause holds as many `?` as it supplies arguments; so the
fragment has as many `?` as there are arguments, and the i-th `?` from the left
stands in the clause that supplied the i-th argument. `Build` returns such a
result whenever the sort entries are non-empty. -/
theorem placeholders_match_arguments (opts : List Option')
    (adds : List (String × List Value)) (r : Record)
    (hdb : ∀ c ∈ r, '?' ∉ c.db.data)
    (hsort : ∀ v ∈ sortEntries r, '?' ∉ v.data)
    (hadds : ∀ a ∈ adds, countPlaceholders a.1 = a.2.length) :
    (∀ res q', (addWhereClauses (New opts) adds).Build (.pointer (.struct r)) =
        some (res, q') →
      countPlaceholders res.sqlClause = res.args.length ∧
      ∃ tail, countPlaceholders tail = 0 ∧
        res.sqlClause = " WHERE 1=1" ++
          concatStrings ((clauseContributions r adds).map Prod.fst) ++ tail ∧
        res.args = ((clauseContributions r adds).map Prod.snd).flatten ∧
        (∀ p ∈ clauseContributions r adds, countPlaceholders p.1 = p.2.length) ∧
        placeholderOwners 0 ((clauseContributions r adds).map Prod.fst) =
          argumentOwners 0 ((clauseContributions r adds).map Prod.snd)) ∧
    ((∀ v ∈ sortEntries r, v ≠ "") →
      ∃ res q', (addWhereClauses (New opts) adds).Build (.pointer (.struct r)) =
        some (res, q')) := by
  obtain ⟨_, _, hsb, hc, hca, ha, hw, _⟩ := New_fields opts
  obtain ⟨a1, a2, a3, a4, a5, _, _, _⟩ := addWhereClauses_fields adds (New opts)
  have hpar := clauseContributions_parity r adds hdb hadds
  constructor
  · intro res q' hB
    obtain ⟨hq', ob, hob, hres⟩ := Build_eq_some _ r res q' hB
    have hsrt : ∀ v ∈ q'.sortBy, '?' ∉ v.data := by
      intro v hv
      rw [hq'] at hv
      have hv' : v ∈ ((addWhereClauses (New opts) adds).scanFields r).sortBy := hv
      rcases scanFields_sortBy_mem r _ v hv' with h | h
      · rw [a5, hsb] at h; cases h
      · exact hsort v h
    have htail : countPlaceholders (ob ++ q'.makeLimitClause) = 0 := by
      rw [countPlaceholders_append, makeOrderByClause_count q' ob hsrt hob,
        makeLimitClause_no_placeholder]
    have hsql : res.sqlClause = " WHERE 1=1" ++
        concatStrings ((clauseContributions r adds).map Prod.fst) ++
        (ob ++ q'.makeLimitClause) := by
      rw [hres, clauseContributions_fst]
      simp only [a1, a3, hc, hw, List.nil_append, str_append_assoc]
    have hargs : res.args = ((clauseContributions r adds).map Prod.snd).flatten := by
      rw [hres, clauseContributions_snd]
      simp only [a2, a4, hca, ha, List.nil_append]
    refine ⟨?_, ob ++ q'.makeLimitClause, htail, hsql, hargs, hpar, owners_agree _ 0 hpar⟩
    have h0 : countPlaceholders " WHERE 1=1" = 0 := by decide
    rw [hsql, hargs, countPlaceholders_append, countPlaceholders_append, htail, h0,
      concat_parity _ hpar]
    omega
  · intro hs
    apply Build_returns
    intro v hv
    rcases scanFields_sortBy_mem r _ v hv with h | h
    · rw [a5, hsb] at h; cases h
    · exact hs v h

theorem placeholders_match_arguments_witness :
    ((∀ c ∈ ([⟨.nullString "hoho" true, "nullstring", "nullstring", false⟩,
        ⟨.strs ["a", "b"], "tag__nin", "tag", false⟩, ⟨.strs ["-id"], "short_by", "", false⟩] : Record),
        '?' ∉ c.db.data) ∧
     (∀ v ∈ sortEntries [⟨.nullString "hoho" true, "nullstring", "nullstring", false⟩,
        ⟨.strs ["a", "b"], "tag__nin", "tag", false⟩, ⟨.strs ["-id"], "short_by", "", false⟩],
        '?' ∉ v.data) ∧
     (∀ a ∈ [("(foo = ? OR bar == ?)", [Value.str "bar", Value.str "foo"]),
        ("ping = ?", [Value.str "pong"])], countPlaceholders a.1 = a.2.length)) ∧
    ∃ res q', (addWhereClauses (New [])
        [("(foo = ? OR bar == ?)", [.str "bar", .str "foo"]), ("ping = ?", [.str "pong"])]).Build
        (.pointer (.struct [⟨.nullString "hoho" true, "nullstring", "nullstring", false⟩,
          ⟨.strs ["a", "b"], "tag__nin", "tag", false⟩, ⟨.strs ["-id"], "short_by", "", false⟩])) =
      some (res, q') ∧ countPlaceholders res.sqlClause = res.args.length := by
  have h := placeholders_match_arguments []
      [("(foo = ? OR bar == ?)", [.str "bar", .str "foo"]), ("ping = ?", [.str "pong"])]
      [⟨.nullString "hoho" true, "nullstring", "nullstring", false⟩,
       ⟨.strs ["a", "b"], "tag__nin", "tag", false⟩, ⟨.strs ["-id"], "short_by", "", false⟩]
      (by decide) (by decide) (by decide)
  obtain ⟨res, q', hB⟩ := h.2 (by decide)
  exact ⟨⟨by decide, by decide, by decide⟩, res, q', hB, (h.1 res q' hB).1⟩

end QBuilder
